import Mathlib

/-!
Shallow embedding of the Connext vector update-protocol core
(`modules/protocol` sync/utils and `modules/contracts` chain services)
and proofs about the behaviour of the embedded code.

Conventions of the embedding:
* TypeScript `BigNumber` arithmetic on decimal strings is exact integer
  arithmetic, embedded as `Int`.
* Fallible TypeScript code returning `Result<T, E>` is embedded as
  `Except E T`; a thrown exception that no caller catches is a distinct
  `crash` outcome.
* Effects (protocol messages sent, channel states persisted) are recorded
  in an explicit trace of `EngineAction`s, returned next to the result.
* External collaborators that are not part of this repository (store,
  messaging, per-type validation from `validate.ts`, signers, providers)
  enter as explicit oracle parameters.
-/

set_option autoImplicit false

/-- Update types of the protocol (`UpdateType` in vector-types). -/
inductive UpdateType where
  | setup
  | deposit
  | create
  | resolve
deriving DecidableEq, Repr

/-- A per-asset channel balance: `{to: [aliceAddr, bobAddr], amount: [aBal, bBal]}`.
The code only ever reads `amount[0]` and `amount[1]`, embedded as a pair. -/
structure Balance where
  toAddresses : List String
  amount : Int × Int
deriving DecidableEq, Repr

/-- A channel update (`ChannelUpdate` in vector-types), restricted to the fields
the code under verification reads. -/
structure ChannelUpdate where
  channelAddress : String
  nonce : Int
  utype : UpdateType
  aliceSignature : Option String
  bobSignature : Option String
deriving DecidableEq, Repr

/-- The full channel state (`FullChannelState` in vector-types), restricted to the
fields the code under verification reads. -/
structure FullChannelState where
  channelAddress : String
  alice : String
  bob : String
  networkContext : Int
  nonce : Int
  latestUpdate : ChannelUpdate
  assetIds : List String
  processedDepositsA : List Int
  processedDepositsB : List Int
  balances : List Balance
  defundNonces : List String
deriving DecidableEq, Repr

/-- A categorized chain error (`ChainError` in vector-types). -/
structure ChainError where
  message : String
deriving DecidableEq, Repr

/-- JavaScript truthiness of an optional string: `undefined` and the empty
string are falsy. -/
def truthy : Option String → Bool
  | none => false
  | some s => !(s == "")

/-- `channelFromStore?.nonce ?? 0`. -/
def storedNonce : Option FullChannelState → Int
  | none => 0
  | some c => c.nonce

def isOkE {E T : Type} : Except E T → Bool
  | .ok _ => true
  | .error _ => false

/-! ## Chain reader retry wrapper (`ethReader.ts`, `retryWrapper`) -/

/-- `ETH_READER_MAX_RETRIES` (vector-types constant; the spec fixes the bound at
5 attempts for chain reads). -/
def ETH_READER_MAX_RETRIES : Nat := 5

/-- The retry loop of `EthereumChainReader.retryWrapper`:
`for (retries = 1; retries < ETH_READER_MAX_RETRIES; retries++)` re-invokes the
target, breaking on the first success.  The target is indexed by the attempt
number; the second component counts the calls made inside the loop. -/
def retryWrapperLoop {T : Type} (target : Nat → Except ChainError T) :
    Nat → Nat → Except ChainError T → Except ChainError T × Nat
  | 0, _, res => (res, 0)
  | rem + 1, idx, _ =>
    let res := target idx
    if isOkE res then (res, 1)
    else
      let next := retryWrapperLoop target rem (idx + 1) res
      (next.1, next.2 + 1)

/-- `EthereumChainReader.retryWrapper`: missing provider fails immediately with
`ProviderNotFound`; otherwise the target is called once and, on error, retried
up to `ETH_READER_MAX_RETRIES - 1` more times; a still-failing result is wrapped
as the categorized error `Could not execute rpc method`.  The second component
is the total number of target calls made. -/
def retryWrapper {T : Type} (providerExists : Bool) (target : Nat → Except ChainError T) :
    Except ChainError T × Nat :=
  if !providerExists then (.error { message := "ProviderNotFound" }, 0)
  else
    let res := target 0
    if isOkE res then (res, 1)
    else
      let l := retryWrapperLoop target (ETH_READER_MAX_RETRIES - 1) 1 res
      (if isOkE l.1 then l.1 else .error { message := "Could not execute rpc method" }, l.2 + 1)

/-- The fixed on-chain view an `EthereumChainReader` observes during one
operation: the provider responses are oracles (deterministic per chain view).
`code` is the provider response for `getCode(channelAddress)`;
`contractTotalsA`/`contractTotalsB` are the channel contract calls
`getTotalDepositsAlice`/`getTotalDepositsBob`; `onchainBalance` is the
provider/ERC20 balance of the channel address for the asset. -/
structure ReaderEnv where
  providerExists : Bool
  code : Except ChainError String
  contractTotalsA : Except ChainError Int
  contractTotalsB : Except ChainError Int
  onchainBalance : Except ChainError Int

/-- `EthereumChainReader.getCode` (retry-wrapped provider `getCode`). -/
def getCode (env : ReaderEnv) : Except ChainError String :=
  (retryWrapper env.providerExists (fun _ => env.code)).1

/-- `EthereumChainReader.getOnchainBalance` (retry-wrapped balance read). -/
def getOnchainBalance (env : ReaderEnv) : Except ChainError Int :=
  (retryWrapper env.providerExists (fun _ => env.onchainBalance)).1

/-- `EthereumChainReader.getTotalDepositedA`: if the channel code is `"0x"`
(contract not deployed) the result is `0`, otherwise the contract call. -/
def getTotalDepositedA (env : ReaderEnv) : Except ChainError Int :=
  (retryWrapper env.providerExists (fun _ =>
    match getCode env with
    | .error e => .error e
    | .ok c => if c = "0x" then .ok 0 else env.contractTotalsA)).1

/-- `EthereumChainReader.getTotalDepositedB`: if the channel code is `"0x"`
(contract not deployed) the result is the on-chain balance held at the channel
address, otherwise the contract call. -/
def getTotalDepositedB (env : ReaderEnv) : Except ChainError Int :=
  (retryWrapper env.providerExists (fun _ =>
    match getCode env with
    | .error e => .error e
    | .ok c => if c = "0x" then getOnchainBalance env else env.contractTotalsB)).1

/-! ## Deposit reconciliation (`utils.ts`, `reconcileDeposit`) -/

/-- The `IVectorChainReader` operations `reconcileDeposit` consumes, as oracles
over `(channelAddress, chainId, assetId)`. -/
structure ChainReaderTotals where
  getTotalDepositedA : String → Int → String → Except ChainError Int
  getTotalDepositedB : String → Int → String → Except ChainError Int

/-- Result record of `reconcileDeposit`. -/
structure ReconcileResult where
  balance : Balance
  totalDepositsAlice : Int
  totalDepositsBob : Int
deriving DecidableEq, Repr

/-- `reconcileDeposit` (protocol `utils.ts`): read the cumulative on-chain
deposit totals for both participants, subtract the already-processed deposits,
and add the pending amounts onto the existing balance. -/
def reconcileDeposit (channelAddress : String) (chainId : Int) (initialBalance : Balance)
    (processedDepositA processedDepositB : Int) (assetId : String)
    (chainReader : ChainReaderTotals) : Except ChainError ReconcileResult :=
  match chainReader.getTotalDepositedA channelAddress chainId assetId with
  | .error e => .error e
  | .ok totalDepositsAlice =>
    match chainReader.getTotalDepositedB channelAddress chainId assetId with
    | .error e => .error e
    | .ok totalDepositsBob =>
      .ok { balance :=
              { toAddresses := initialBalance.toAddresses
                amount := (initialBalance.amount.1 + (totalDepositsAlice - processedDepositA),
                           initialBalance.amount.2 + (totalDepositsBob - processedDepositB)) }
            totalDepositsAlice := totalDepositsAlice
            totalDepositsBob := totalDepositsBob }

/-! ## On-chain transaction submission (`ethService.ts`, `sendTxWithRetries`) -/

/-- Outcome of one `sendTxAndParseResponse` attempt: success, an error the
taxonomy marks retryable (`canRetry`), or a non-retryable error. -/
inductive TxAttemptResult where
  | ok
  | errorRetry
  | errorNoRetry
deriving DecidableEq, Repr

/-- Observable outcome of `sendTxWithRetries`. -/
inductive SendTxOutcome where
  | success
  | failedNoRetry
  | failedAfterRetries
deriving DecidableEq, Repr

/-- The loop of `EthereumChainService.sendTxWithRetries`, exactly as written:
`for (let attempt = 1; attempt++; attempt < this.defaultRetries)`.  The middle
expression `attempt++` is the loop condition; it yields the pre-increment value
of `attempt`, so it is falsy only when `attempt` is `0`.  The third expression
`attempt < this.defaultRetries` is the update expression and has no effect.
Falling out of the loop would return the `FailedToSendTx` failure
(`failedAfterRetries`).  `fuel` bounds the number of iterations we unfold;
`none` means the loop is still running after `fuel` iterations. -/
def sendTxWithRetriesLoop (resp : Nat → TxAttemptResult) (defaultRetries : Nat) :
    Nat → Nat → Option SendTxOutcome
  | _, 0 => none
  | attempt, fuel + 1 =>
    if attempt = 0 then some .failedAfterRetries
    else
      match resp attempt with
      | .ok => some .success
      | .errorNoRetry => some .failedNoRetry
      | .errorRetry => sendTxWithRetriesLoop resp defaultRetries (attempt + 1) fuel

/-- `EthereumChainService.sendTxWithRetries`, entered with `attempt = 1`.
`defaultRetries` is the constructor default `1`. -/
def sendTxWithRetries (resp : Nat → TxAttemptResult) (defaultRetries : Nat)
    (fuel : Nat) : Option SendTxOutcome :=
  sendTxWithRetriesLoop resp defaultRetries 1 fuel

/-! ## Channel commitment signing (`utils.ts`, `generateSignedChannelCommitment`) -/

/-- `CoreChannelState`: the channel state minus its `networkContext`
(`const { networkContext, ...core } = newState`). -/
structure CoreChannelState where
  channelAddress : String
  alice : String
  bob : String
  nonce : Int
  latestUpdate : ChannelUpdate
  assetIds : List String
  processedDepositsA : List Int
  processedDepositsB : List Int
  balances : List Balance
  defundNonces : List String
deriving DecidableEq, Repr

/-- Drop the `networkContext` field of a channel state. -/
def coreOf (s : FullChannelState) : CoreChannelState :=
  { channelAddress := s.channelAddress
    alice := s.alice
    bob := s.bob
    nonce := s.nonce
    latestUpdate := s.latestUpdate
    assetIds := s.assetIds
    processedDepositsA := s.processedDepositsA
    processedDepositsB := s.processedDepositsB
    balances := s.balances
    defundNonces := s.defundNonces }

/-- Modelled: `hashChannelCommitment` from vector-utils (external library,
`keccak(abi.encode(core))`).  Only its value as an opaque message to be signed
matters to the code under verification; we use a core-state-dependent string. -/
def hashChannelCommitment (core : CoreChannelState) : String :=
  core.channelAddress ++ ":" ++ toString core.nonce ++ ":" ++ core.alice ++ ":" ++ core.bob

/-- A channel signer (`IChannelSigner`): an address plus a fallible
`signMessage` oracle. -/
structure ChannelSigner where
  address : String
  signMessage : String → Except String String

/-- Result record of `generateSignedChannelCommitment`. -/
structure SignedCommitment where
  core : CoreChannelState
  aliceSignature : Option String
  bobSignature : Option String
deriving DecidableEq, Repr

/-- `generateSignedChannelCommitment` (protocol `utils.ts`): if both signatures
are already present, return them with the core state unchanged; otherwise sign
the commitment hash and place the new signature in the alice slot exactly when
the signer address is the state's alice address, passing the provided
counterparty signature through. -/
def generateSignedChannelCommitment (newState : FullChannelState) (signer : ChannelSigner)
    (aliceSignature bobSignature : Option String) : Except String SignedCommitment :=
  let core := coreOf newState
  let hash := hashChannelCommitment core
  if truthy aliceSignature && truthy bobSignature then
    .ok { core := core, aliceSignature := aliceSignature, bobSignature := bobSignature }
  else
    match signer.signMessage hash with
    | .error e => .error e
    | .ok sig =>
      let isAlice := signer.address == newState.alice
      .ok { core := core
            aliceSignature := if isAlice then some sig else aliceSignature
            bobSignature := if isAlice then bobSignature else some sig }

/-! ## Asset-id merge on load (`utils.ts`, `mergeAssetIds`) -/

/-- ASCII lowercasing of one character (the relevant fragment of JavaScript
`toLowerCase` for hex address strings). -/
def lowerChar (c : Char) : Char :=
  if 65 ≤ c.toNat ∧ c.toNat ≤ 90 then Char.ofNat (c.toNat + 32) else c

/-- Modelled: JavaScript `toLowerCase()` on ASCII address strings, defined by
structural recursion so that concrete runs evaluate. -/
def toLowerAscii (s : String) : String := String.mk (s.data.map lowerChar)

/-- Lexicographic (code-unit) comparison of character lists: the order
JavaScript `<`/`>` uses on strings. -/
def charListLt : List Char → List Char → Bool
  | _, [] => false
  | [], _ :: _ => true
  | a :: as, b :: bs => if a < b then true else if b < a then false else charListLt as bs

/-- JavaScript `a < b` on strings. -/
def strLt (a b : String) : Bool := charListLt a.data b.data

/-- JavaScript `a > b` on strings. -/
def strGtB (a b : String) : Bool := strLt b a

/-- `prev > curr ? prev : curr` — the binary string maximum the defund-nonce
reduce computes on matching entries. -/
def smaxStr (a b : String) : String := if strGtB a b then a else b

/-- Modelled: ethers `getAddress` maps an address to its canonical (EIP-55
checksummed) form; two addresses have the same canonical form exactly when they
are equal up to casing.  We use the lowercase form as the canonical form, which
has the same equality kernel. -/
def getAddress (s : String) : String := toLowerAscii s

/-- `a.toLowerCase() === asset.toLowerCase()`. -/
def lowerEq (a b : String) : Bool := toLowerAscii a == toLowerAscii b

/-- One merged row: the values `mergeAssetIds` assigns at one index of the five
parallel channel arrays. -/
structure AssetRow where
  assetId : String
  processedA : Int
  processedB : Int
  balance : Balance
  defundNonce : String
deriving DecidableEq, Repr

/-- The asset ids present in the accumulating (sparse) `assetIds` array:
`assetIds.includes(checkSummed)` skips holes, so only assigned values count. -/
def assignedAssetIds (assignments : List (Nat × AssetRow)) : List String :=
  assignments.map (fun p => p.2.assetId)

/-- The `unprocessedAsset` predicate inside the merge branch of
`mergeAssetIds`: an entry counts exactly when it matches the asset being merged
case-insensitively and the merged (checksummed) id has not already been written
to the rebuilt `assetIds` array (`already`). -/
def unprocessedAsset (asset : String) (already : Bool) (a : String) : Bool :=
  lowerEq a asset && !already

/-- The `processedAForAsset`/`processedBForAsset` reduce of `mergeAssetIds`:
sum the entries whose index holds an unprocessed duplicate of the asset. -/
def processedForAsset (channel : FullChannelState) (asset : String) (already : Bool)
    (l : List Int) : Int :=
  l.enum.foldl
    (fun prev p =>
      prev + (if unprocessedAsset asset already (channel.assetIds.getD p.1 "") then p.2 else 0))
    0

/-- The `balanceForAsset` reduce of `mergeAssetIds`: add up the amounts of
unprocessed duplicates, keeping `to := [alice, bob]` from the initial value. -/
def balanceForAsset (channel : FullChannelState) (asset : String) (already : Bool) : Balance :=
  channel.balances.enum.foldl
    (fun prev p =>
      if unprocessedAsset asset already (channel.assetIds.getD p.1 "") then
        { toAddresses := prev.toAddresses
          amount := (prev.amount.1 + p.2.amount.1, prev.amount.2 + p.2.amount.2) }
      else prev)
    { toAddresses := [channel.alice, channel.bob], amount := ((0 : Int), (0 : Int)) }

/-- The `defundNonceForAsset` reduce of `mergeAssetIds`, exactly as written:
`unprocessedAsset(assetIds[i]) && prev > curr ? prev : curr` — note that a
non-matching index takes `curr`, the defund nonce of an unrelated asset, and
that `>` is JavaScript string comparison. -/
def defundNonceForAsset (channel : FullChannelState) (asset : String) (already : Bool) : String :=
  channel.defundNonces.enum.foldl
    (fun prev p =>
      if unprocessedAsset asset already (channel.assetIds.getD p.1 "") && strGtB prev p.2
      then prev else p.2)
    "0"

/-- The row written in the merge branch of `mergeAssetIds`. -/
def mergeRowForAsset (channel : FullChannelState) (asset : String) (already : Bool) : AssetRow :=
  { assetId := getAddress asset
    processedA := processedForAsset channel asset already channel.processedDepositsA
    processedB := processedForAsset channel asset already channel.processedDepositsB
    balance := balanceForAsset channel asset already
    defundNonce := defundNonceForAsset channel asset already }

/-- One iteration of the `channel.assetIds.forEach` in `mergeAssetIds`, at
index `idx` holding `asset`.  `assignments` are the indices assigned so far
(JavaScript sparse-array writes, in increasing index order).  With no
duplicates the original values are copied at `idx`; with duplicates the merged
row is written at `idx` unless the merged id was already written
(`!unprocessedAsset(asset)`), in which case nothing is assigned. -/
def mergeStep (channel : FullChannelState) (assignments : List (Nat × AssetRow))
    (idx : Nat) (asset : String) : List (Nat × AssetRow) :=
  if (channel.assetIds.enum.filter (fun p => lowerEq p.2 asset && !(p.1 == idx))).isEmpty then
    assignments ++ [(idx,
      { assetId := getAddress asset
        processedA := channel.processedDepositsA.getD idx 0
        processedB := channel.processedDepositsB.getD idx 0
        balance := channel.balances.getD idx { toAddresses := [], amount := (0, 0) }
        defundNonce := channel.defundNonces.getD idx "0" })]
  else if unprocessedAsset asset ((assignedAssetIds assignments).contains (getAddress asset))
      asset then
    assignments ++ [(idx, mergeRowForAsset channel asset
      ((assignedAssetIds assignments).contains (getAddress asset)))]
  else assignments

/-- All array writes performed by the `forEach` of `mergeAssetIds`. -/
def mergeAssignments (channel : FullChannelState) : List (Nat × AssetRow) :=
  channel.assetIds.enum.foldl (fun acc p => mergeStep channel acc p.1 p.2) []

/-- Read an index of a JavaScript sparse array built from `assignments`
(`undefined`, i.e. `none`, at unassigned indices). -/
def lookupRow (assignments : List (Nat × AssetRow)) (i : Nat) : Option AssetRow :=
  (assignments.find? (fun p => p.1 == i)).map (fun p => p.2)

/-- A JavaScript array's length is one past its highest assigned index:
trailing holes do not exist, interior holes read as `undefined`. -/
def jsTrim {A : Type} (l : List (Option A)) : List (Option A) :=
  (l.reverse.dropWhile (fun o => o.isNone)).reverse

/-- The channel returned by `mergeAssetIds`, with the five rebuilt parallel
arrays.  Entries are `Option`s because the rebuilt JavaScript arrays can
contain holes (an index of a later duplicate is never assigned). -/
structure MergedChannel where
  channelAddress : String
  alice : String
  bob : String
  nonce : Int
  assetIds : List (Option String)
  processedDepositsA : List (Option Int)
  processedDepositsB : List (Option Int)
  balances : List (Option Balance)
  defundNonces : List (Option String)
deriving DecidableEq, Repr

/-- `mergeAssetIds` (protocol `utils.ts`): merge duplicate asset ids that
differ only in casing, rebuilding the five parallel channel arrays. -/
def mergeAssetIds (channel : FullChannelState) : MergedChannel :=
  let asg := mergeAssignments channel
  let rows := (List.range channel.assetIds.length).map (lookupRow asg)
  { channelAddress := channel.channelAddress
    alice := channel.alice
    bob := channel.bob
    nonce := channel.nonce
    assetIds := jsTrim (rows.map (Option.map (fun r => r.assetId)))
    processedDepositsA := jsTrim (rows.map (Option.map (fun r => r.processedA)))
    processedDepositsB := jsTrim (rows.map (Option.map (fun r => r.processedB)))
    balances := jsTrim (rows.map (Option.map (fun r => r.balance)))
    defundNonces := jsTrim (rows.map (Option.map (fun r => r.defundNonce))) }

/-! ## Error reasons and engine actions (`sync.ts`, `errors.ts`)

The reason constants live in `errors.ts`, which is not part of the sources
under verification; they are modelled from the spec's error taxonomy as
distinct string tags.  The only structural facts the code under verification
relies on are their pairwise distinctness and the comparison of a raised
message against `CannotSyncSetup`. -/

/-- Modelled from the spec: `InboundChannelUpdateError.reasons.StaleUpdate`. -/
def ReasonStaleUpdate : String := "StaleUpdate"

/-- Modelled from the spec: `reasons.RestoreNeeded` (both error classes). -/
def ReasonRestoreNeeded : String := "RestoreNeeded"

/-- Modelled from the spec: `InboundChannelUpdateError.reasons.StaleChannel`. -/
def ReasonStaleChannel : String := "StaleChannel"

/-- Modelled from the spec: `reasons.CannotSyncSetup` (both error classes). -/
def ReasonCannotSyncSetup : String := "CannotSyncSetup"

/-- Modelled from the spec: `reasons.SyncFailure` (both error classes). -/
def ReasonSyncFailure : String := "SyncFailure"

/-- Modelled from the spec: `reasons.StoreFailure` (both error classes). -/
def ReasonStoreFailure : String := "StoreFailure"

/-- Modelled from the spec: `reasons.SaveChannelFailed`. -/
def ReasonSaveChannelFailed : String := "SaveChannelFailed"

/-- Modelled from the spec: the protocol-error reason `CannotSyncSingleSigned`
named by the spec's error taxonomy (§4.4, §6). -/
def ReasonCannotSyncSingleSigned : String := "CannotSyncSingleSigned"

/-- Modelled from the spec: `OutboundChannelUpdateError.reasons.NoUpdateToSync`. -/
def ReasonNoUpdateToSync : String := "NoUpdateToSync"

/-- Modelled from the spec: `OutboundChannelUpdateError.reasons.CounterpartyOffline`. -/
def ReasonCounterpartyOffline : String := "CounterpartyOffline"

/-- Modelled from the spec: `OutboundChannelUpdateError.reasons.CounterpartyFailure`. -/
def ReasonCounterpartyFailure : String := "CounterpartyFailure"

/-- Modelled from the spec: `OutboundChannelUpdateError.reasons.BadSignatures`. -/
def ReasonBadSignatures : String := "BadSignatures"

/-- Modelled from the spec: `OutboundChannelUpdateError.reasons.RegenerateUpdateFailed`. -/
def ReasonRegenerateUpdateFailed : String := "RegenerateUpdateFailed"

/-- Modelled from the spec: `MessagingError.reasons.Timeout`. -/
def ReasonTimeout : String := "Timeout"

/-- The message literal raised by `syncState` for a single-signed sync
(verbatim from `sync.ts`). -/
def CannotSyncSingleSignedMessage : String := "Cannot sync single signed state"

/-- An `InboundChannelUpdateError`: reason plus the update / state / sync
context the constructor stores. -/
structure InboundError where
  reason : String
  update : Option ChannelUpdate
  state : Option FullChannelState
  syncError : Option String
deriving DecidableEq, Repr

/-- An `OutboundChannelUpdateError`: reason plus stored context. -/
structure OutboundError where
  reason : String
  state : Option FullChannelState
  syncError : Option String
  counterpartyReason : Option String
deriving DecidableEq, Repr

/-- Observable side effects of the update engine, in execution order:
protocol messages sent, channel states persisted (tagged by the persisting
call site), and protocol replies. -/
inductive EngineAction where
  | sentProtocolMessage (update : ChannelUpdate)
  | savedSyncedChannel (c : FullChannelState)
  | savedInboundChannel (c : FullChannelState)
  | savedOutboundChannel (c : FullChannelState)
  | respondedWithError (e : InboundError)
  | respondedToMessage (latestUpdate : ChannelUpdate)
deriving DecidableEq, Repr

/-! ## Inbound validation (`validate.ts`, modelled) -/

/-- The per-type validation of an inbound update, abstracted: `check` returns
`some message` to reject, `none` to accept; `transfersAfter` is the updated
active-transfer set. -/
structure InboundValidationOracle where
  check : ChannelUpdate → Option FullChannelState → List String → Option String
  transfersAfter : ChannelUpdate → Option FullChannelState → List String → List String

/-- Modelled from the spec: the state produced by `applyUpdate` (validate.ts /
update.ts, not under src/).  Per the spec (§3), the update's nonce is the nonce
the state has after applying it, and the applied update becomes `latestUpdate`;
fields irrelevant to the settled claims are carried over. -/
def applyUpdateModel (update : ChannelUpdate) (previousState : Option FullChannelState) :
    FullChannelState :=
  match previousState with
  | some c => { c with nonce := update.nonce, latestUpdate := update }
  | none =>
    { channelAddress := update.channelAddress
      alice := ""
      bob := ""
      networkContext := 0
      nonce := update.nonce
      latestUpdate := update
      assetIds := []
      processedDepositsA := []
      processedDepositsB := []
      balances := []
      defundNonces := [] }

/-- Modelled from the spec: `validateAndApplyInboundUpdate` (validate.ts, not
under src/).  Per §4.1.1 (3) an update is only valid against a previous state
whose nonce it exceeds by exactly one; per-type and signature validation is the
oracle's `check`.  On success the update is applied. -/
def validateAndApplyInboundUpdate (V : InboundValidationOracle) (update : ChannelUpdate)
    (previousState : Option FullChannelState) (activeTransfers : List String) :
    Except String (FullChannelState × List String) :=
  if update.nonce ≠ storedNonce previousState + 1 then .error "InvalidUpdateNonce"
  else
    match V.check update previousState activeTransfers with
    | some msg => .error msg
    | none => .ok (applyUpdateModel update previousState,
                   V.transfersAfter update previousState activeTransfers)

/-! ## Syncer (`sync.ts`, `syncState`) -/

/-- `syncState` (sync.ts): refuse to sync a setup update, refuse a
single-signed update, validate and apply the update to sync via the inbound
validation path, persist the synced channel, and return it.  Errors flow
through the caller-supplied `handleError`.  The trace records the persistence
performed. -/
def syncState {E : Type} (toSync : ChannelUpdate) (previousState : Option FullChannelState)
    (activeTransfers : List String) (handleError : String → E)
    (V : InboundValidationOracle) (save : FullChannelState → Except String Unit) :
    Except E (FullChannelState × List String) × List EngineAction :=
  if toSync.utype = UpdateType.setup then
    (.error (handleError ReasonCannotSyncSetup), [])
  else if !(truthy toSync.aliceSignature) || !(truthy toSync.bobSignature) then
    (.error (handleError CannotSyncSingleSignedMessage), [])
  else
    match validateAndApplyInboundUpdate V toSync previousState activeTransfers with
    | .error msg => (.error (handleError msg), [])
    | .ok (syncedChannel, updatedActiveTransfers) =>
      match save syncedChannel with
      | .error msg => (.error (handleError msg), [])
      | .ok _ => (.ok (syncedChannel, updatedActiveTransfers),
                  [.savedSyncedChannel syncedChannel])

/-- The error callback `inbound` hands to `syncState`
(the lambda around `new InboundChannelUpdateError(...)` in `sync.ts`). -/
def inboundSyncErrorHandler (previousUpdate : Option ChannelUpdate)
    (previousState : Option FullChannelState) (message : String) : InboundError :=
  { reason := if message ≠ ReasonCannotSyncSetup then ReasonSyncFailure else ReasonCannotSyncSetup
    update := previousUpdate
    state := previousState
    syncError := some message }

/-- The error callback `syncStateAndRecreateUpdate` hands to `syncState`
(the lambda around `new OutboundChannelUpdateError(...)` in `sync.ts`). -/
def outboundSyncErrorHandler (previousState : Option FullChannelState)
    (message : String) : OutboundError :=
  { reason := if message ≠ ReasonCannotSyncSetup then ReasonSyncFailure else ReasonCannotSyncSetup
    state := previousState
    syncError := some message
    counterpartyReason := none }

/-! ## Inbound engine (`sync.ts`, `inbound`) -/

/-- Outcome of `inbound`: an unhandled TypeScript `TypeError` (`crash`), a
protocol error returned after replying with it, or the double-signed state. -/
inductive InboundOutcome where
  | crash
  | failed (e : InboundError)
  | applied (updatedChannel : FullChannelState) (updatedActiveTransfers : List String)
deriving DecidableEq, Repr

/-- The oracles `inbound` consumes: the store extraction result, the modelled
inbound validator, and the store's `saveChannelState`. -/
structure InboundEnv where
  storeRes : Except String (List String × Option FullChannelState)
  V : InboundValidationOracle
  save : FullChannelState → Except String Unit

/-- The `returnError` helper of `inbound`: build the error (the `prevUpdate`
argument defaults to the inbound update when absent), respond to the peer with
it, and fail. -/
def inboundReturnError (reason : String) (prevUpdate : Option ChannelUpdate)
    (inboundUpdate : ChannelUpdate) (state : Option FullChannelState)
    (syncErr : Option String) : InboundOutcome × List EngineAction :=
  let e : InboundError :=
    { reason := reason
      update := some (prevUpdate.getD inboundUpdate)
      state := state
      syncError := syncErr }
  (InboundOutcome.failed e, [EngineAction.respondedWithError e])

/-- The tail of `inbound` shared by the `diff == 1` and `diff == 2` paths:
validate and apply the update on the (possibly synced) previous state, persist
it, and respond to the peer with the double-signed update. -/
def inboundProcessUpdate (update : ChannelUpdate) (previousState : Option FullChannelState)
    (activeTransfers : List String) (env : InboundEnv) : InboundOutcome × List EngineAction :=
  match validateAndApplyInboundUpdate env.V update previousState activeTransfers with
  | .error msg => inboundReturnError msg (some update) update previousState none
  | .ok (updatedChannel, updatedActiveTransfers) =>
    match env.save updatedChannel with
    | .error _ => inboundReturnError ReasonSaveChannelFailed (some update) update previousState none
    | .ok _ =>
      (InboundOutcome.applied updatedChannel updatedActiveTransfers,
        [EngineAction.savedInboundChannel updatedChannel,
         EngineAction.respondedToMessage updatedChannel.latestUpdate])

/-- `inbound` (sync.ts): the nonce-diff dispatch on a received protocol
message.  `diff ≤ 0` replies `StaleUpdate` with the stored `latestUpdate`
(dereferencing `channelFromStore!` — a `TypeError` crash when no channel is
stored); `diff ≥ 3` replies `RestoreNeeded`; `diff == 2` first applies the
supplied peer previous update via `syncState` and then processes the update;
`diff == 1` processes the update directly. -/
def inbound (update : ChannelUpdate) (previousUpdate : Option ChannelUpdate)
    (env : InboundEnv) : InboundOutcome × List EngineAction :=
  match env.storeRes with
  | .error _ => inboundReturnError ReasonStoreFailure none update none none
  | .ok (activeTransfers, channelFromStore) =>
    let prevNonce := storedNonce channelFromStore
    let diff := update.nonce - prevNonce
    if diff ≤ 0 then
      match channelFromStore with
      | none => (InboundOutcome.crash, [])
      | some c => inboundReturnError ReasonStaleUpdate (some c.latestUpdate) update (some c) none
    else if diff ≥ 3 then
      inboundReturnError ReasonRestoreNeeded (some update) update channelFromStore none
    else if diff = 2 then
      match previousUpdate with
      | none => inboundReturnError ReasonStaleChannel none update channelFromStore none
      | some pu =>
        match syncState pu channelFromStore activeTransfers
            (inboundSyncErrorHandler (some pu) channelFromStore) env.V env.save with
        | (.error e, tr) =>
          let r := inboundReturnError e.reason e.update update e.state e.syncError
          (r.1, tr ++ r.2)
        | (.ok (syncedChannel, syncedTransfers), tr) =>
          let r := inboundProcessUpdate update (some syncedChannel) syncedTransfers env
          (r.1, tr ++ r.2)
    else
      inboundProcessUpdate update channelFromStore activeTransfers env

/-! ## Outbound engine (`sync.ts`, `outbound` and `syncStateAndRecreateUpdate`) -/

/-- The value produced by `validateParamsAndApplyUpdate` (validate.ts, an
oracle here): the derived single-signed update, the updated channel, and the
updated transfer bookkeeping. -/
structure UpdateInfo where
  update : ChannelUpdate
  updatedChannel : FullChannelState
  updatedTransfer : Option String
  updatedActiveTransfers : List String
deriving DecidableEq, Repr

/-- The oracles `outbound` consumes for one invocation on fixed params: the
store extraction result, `validateParamsAndApplyUpdate` as a function of the
previous state and active transfers, the reply to the n-th
`sendProtocolMessage`, signature verification, the modelled inbound validator
(used while syncing), and the store's `saveChannelState`. -/
structure OutboundEnv where
  storeRes : Except String (List String × Option FullChannelState)
  vpaau : Option FullChannelState → List String → Except OutboundError UpdateInfo
  send : Nat → Except InboundError ChannelUpdate
  validateSigs : FullChannelState → Option String → Option String → Except String Unit
  V : InboundValidationOracle
  save : FullChannelState → Except String Unit

/-- Outcome of `outbound`: an unhandled TypeScript `TypeError` (`crash`), an
error result, or the double-signed updated channel. -/
inductive OutboundOutcome where
  | crash
  | failed (e : OutboundError)
  | completed (updatedChannel : FullChannelState) (updatedActiveTransfers : List String)
      (updatedTransfer : Option String)
deriving DecidableEq, Repr

/-- Result of `syncStateAndRecreateUpdate`: the regenerated update info plus
the synced channel it was derived against. -/
structure OutboundSync where
  info : UpdateInfo
  syncedChannel : FullChannelState
deriving DecidableEq, Repr

/-- `syncStateAndRecreateUpdate` (sync.ts): after a `StaleUpdate` reply, take
the counterparty's latest update out of the received error; refuse unless it is
ahead of the local state by exactly 1 (`RestoreNeeded` otherwise — building
that error dereferences `previousState.nonce`, a `TypeError` crash when the
previous state is `undefined`, modelled as `none` in the first component);
sync via `syncState` and re-derive the proposed update against the synced
state. -/
def syncStateAndRecreateUpdate (receivedError : InboundError)
    (previousState : Option FullChannelState) (activeTransfers : List String)
    (env : OutboundEnv) : Option (Except OutboundError OutboundSync) × List EngineAction :=
  match receivedError.update with
  | none =>
    (some (.error { reason := ReasonNoUpdateToSync, state := previousState,
                    syncError := none, counterpartyReason := none }), [])
  | some counterpartyUpdate =>
    let diff := counterpartyUpdate.nonce - storedNonce previousState
    if diff ≠ 1 then
      match previousState with
      | none => (none, [])
      | some ps =>
        (some (.error { reason := ReasonRestoreNeeded, state := some ps,
                        syncError := none, counterpartyReason := none }), [])
    else
      match syncState counterpartyUpdate previousState activeTransfers
          (outboundSyncErrorHandler previousState) env.V env.save with
      | (.error e, tr) => (some (.error e), tr)
      | (.ok (syncedChannel, syncedTransfers), tr) =>
        match env.vpaau (some syncedChannel) syncedTransfers with
        | .error e =>
          (some (.error { reason := ReasonRegenerateUpdateFailed, state := some syncedChannel,
                          syncError := none, counterpartyReason := some e.reason }), tr)
        | .ok info2 => (some (.ok { info := info2, syncedChannel := syncedChannel }), tr)

/-- The tail of `outbound` after the (possibly retried) counterparty reply is
in hand: map a reply error to `CounterpartyOffline`/`CounterpartyFailure`,
verify both countersignatures, and persist the updated channel with the
counterparty's double-signed update as `latestUpdate`. -/
def outboundAfterReply (env : OutboundEnv) (reply : Except InboundError ChannelUpdate)
    (info : UpdateInfo) (previousState : Option FullChannelState)
    (tr : List EngineAction) : OutboundOutcome × List EngineAction :=
  match reply with
  | .error err =>
    (.failed { reason := if err.reason = ReasonTimeout
                         then ReasonCounterpartyOffline else ReasonCounterpartyFailure
               state := previousState
               syncError := none
               counterpartyReason := some err.reason }, tr)
  | .ok counterpartyUpdate =>
    match env.validateSigs info.updatedChannel counterpartyUpdate.aliceSignature
        counterpartyUpdate.bobSignature with
    | .error _ =>
      (.failed { reason := ReasonBadSignatures, state := previousState,
                 syncError := none, counterpartyReason := none }, tr)
    | .ok _ =>
      let finalChannel := { info.updatedChannel with latestUpdate := counterpartyUpdate }
      match env.save finalChannel with
      | .error _ =>
        (.failed { reason := ReasonSaveChannelFailed, state := some finalChannel,
                   syncError := none, counterpartyReason := none }, tr)
      | .ok _ =>
        (.completed finalChannel info.updatedActiveTransfers info.updatedTransfer,
         tr ++ [EngineAction.savedOutboundChannel finalChannel])

/-- `outbound` (sync.ts): validate the proposed parameters against the stored
state, send the single-signed update, on a `StaleUpdate` reply sync once and
retry the send once, then verify the countersigned reply and persist. -/
def outbound (env : OutboundEnv) : OutboundOutcome × List EngineAction :=
  match env.storeRes with
  | .error _ =>
    (.failed { reason := ReasonStoreFailure, state := none,
               syncError := none, counterpartyReason := none }, [])
  | .ok (activeTransfers, previousState) =>
    match env.vpaau previousState activeTransfers with
    | .error e => (.failed e, [])
    | .ok info =>
      let tr0 := [EngineAction.sentProtocolMessage info.update]
      match env.send 0 with
      | .error err =>
        if err.reason = ReasonStaleUpdate then
          match syncStateAndRecreateUpdate err previousState activeTransfers env with
          | (none, trS) => (.crash, tr0 ++ trS)
          | (some (.error e), trS) => (.failed e, tr0 ++ trS)
          | (some (.ok sync), trS) =>
            outboundAfterReply env (env.send 1) sync.info (some sync.syncedChannel)
              (tr0 ++ trS ++ [EngineAction.sentProtocolMessage sync.info.update])
        else
          outboundAfterReply env (.error err) info previousState tr0
      | .ok counterpartyUpdate =>
        outboundAfterReply env (.ok counterpartyUpdate) info previousState tr0

/-- The protocol messages sent during a run, in order. -/
def sentUpdates (tr : List EngineAction) : List ChannelUpdate :=
  tr.filterMap (fun a => match a with
    | EngineAction.sentProtocolMessage u => some u
    | _ => none)

/-- The channel states persisted during a run, in order (any call site). -/
def savedStates (tr : List EngineAction) : List FullChannelState :=
  tr.filterMap (fun a => match a with
    | EngineAction.savedSyncedChannel c => some c
    | EngineAction.savedInboundChannel c => some c
    | EngineAction.savedOutboundChannel c => some c
    | _ => none)

/-- Whether a trace contains the final outbound persistence. -/
def hasFinalOutboundSave (tr : List EngineAction) : Bool :=
  tr.any (fun a => match a with
    | EngineAction.savedOutboundChannel _ => true
    | _ => false)

/-! ## Helper lemmas -/

theorem retryWrapperLoop_count_le {T : Type} (target : Nat → Except ChainError T) :
    ∀ (rem idx : Nat) (res : Except ChainError T),
      (retryWrapperLoop target rem idx res).2 ≤ rem := by
  intro rem
  induction rem with
  | zero => intro idx res; simp [retryWrapperLoop]
  | succ n ih =>
    intro idx res
    simp only [retryWrapperLoop]
    split
    · simp
    · have := ih (idx + 1) (target idx)
      omega

/-! ## Claims -/

/-- C3: for every deposit reconciliation whose chain reads succeed, the
returned balance adds exactly the unprocessed on-chain deposits
(`total − processed`) per side onto the existing balance, and the returned
totals are the values read from the chain reader. -/
theorem c3_reconcile_deposit_arithmetic (addr : String) (cid : Int) (init : Balance)
    (pA pB : Int) (asset : String) (cr : ChainReaderTotals) (tA tB : Int)
    (hA : cr.getTotalDepositedA addr cid asset = .ok tA)
    (hB : cr.getTotalDepositedB addr cid asset = .ok tB) :
    reconcileDeposit addr cid init pA pB asset cr =
      .ok { balance := { toAddresses := init.toAddresses
                         amount := (init.amount.1 + (tA - pA), init.amount.2 + (tB - pB)) }
            totalDepositsAlice := tA
            totalDepositsBob := tB } := by
  simp [reconcileDeposit, hA, hB]

def c3Reader : ChainReaderTotals :=
  { getTotalDepositedA := fun _ _ _ => .ok 10
    getTotalDepositedB := fun _ _ _ => .ok 4 }

def c3Init : Balance := { toAddresses := ["A", "B"], amount := (7, 1) }

/-- Witness for C3 at a concrete input: totals 10/4, processed 3/1,
existing balance (7, 1), reconciled balance (14, 4). -/
theorem c3_reconcile_deposit_arithmetic_witness :
    c3Reader.getTotalDepositedA "0xccc" 1337 "0xa" = .ok 10 ∧
    c3Reader.getTotalDepositedB "0xccc" 1337 "0xa" = .ok 4 ∧
    reconcileDeposit "0xccc" 1337 c3Init 3 1 "0xa" c3Reader =
      .ok { balance := { toAddresses := ["A", "B"], amount := (14, 4) }
            totalDepositsAlice := 10
            totalDepositsBob := 4 } :=
  ⟨rfl, rfl, by
    have h := c3_reconcile_deposit_arithmetic "0xccc" 1337 c3Init 3 1 "0xa" c3Reader 10 4 rfl rfl
    simpa [c3Init] using h⟩

/-- C6: for a channel address whose deployed code is empty (`getCode` returns
`"0x"`), `getTotalDepositedA` returns 0 and `getTotalDepositedB` returns the
on-chain balance held at the channel address for the asset. -/
theorem c6_undeployed_channel_deposits (env : ReaderEnv)
    (hp : env.providerExists = true) (hc : env.code = .ok "0x") :
    getTotalDepositedA env = .ok 0 ∧
    ∀ b : Int, env.onchainBalance = .ok b → getTotalDepositedB env = .ok b := by
  have hcode : getCode env = .ok "0x" := by
    simp [getCode, retryWrapper, hp, hc, isOkE]
  constructor
  · simp [getTotalDepositedA, retryWrapper, hp, hcode, isOkE]
  · intro b hb
    have hbal : getOnchainBalance env = .ok b := by
      simp [getOnchainBalance, retryWrapper, hp, hb, isOkE]
    simp [getTotalDepositedB, retryWrapper, hp, hcode, hbal, isOkE]

def c6Env : ReaderEnv :=
  { providerExists := true
    code := .ok "0x"
    contractTotalsA := .error { message := "not deployed" }
    contractTotalsB := .error { message := "not deployed" }
    onchainBalance := .ok 25 }

/-- Witness for C6 at a concrete input: undeployed channel holding 25 on-chain
is read back as totals (0, 25). -/
theorem c6_undeployed_channel_deposits_witness :
    c6Env.providerExists = true ∧ c6Env.code = .ok "0x" ∧
    getTotalDepositedA c6Env = .ok 0 ∧ getTotalDepositedB c6Env = .ok 25 :=
  ⟨rfl, rfl, (c6_undeployed_channel_deposits c6Env rfl rfl).1,
    (c6_undeployed_channel_deposits c6Env rfl rfl).2 25 rfl⟩

/-- C9: the chain-reader retry wrapper makes at most `ETH_READER_MAX_RETRIES`
(= 5) target calls for every input, but the transaction-submission loop of
`sendTxWithRetries`, as written (`for (let attempt = 1; attempt++;
attempt < this.defaultRetries)`), never terminates when every attempt fails
with a retryable error: for every fuel bound the loop is still running, so the
bounded-retry failure after the loop is unreachable. -/
theorem c9_retry_bounds (T : Type) :
    (∀ (pe : Bool) (target : Nat → Except ChainError T),
        (retryWrapper pe target).2 ≤ ETH_READER_MAX_RETRIES) ∧
    (∀ fuel k : Nat,
        sendTxWithRetriesLoop (fun _ => TxAttemptResult.errorRetry) 1 (k + 1) fuel = none) ∧
    (∀ fuel : Nat, sendTxWithRetries (fun _ => TxAttemptResult.errorRetry) 1 fuel = none) := by
  refine ⟨?_, ?_, ?_⟩
  · intro pe target
    simp only [retryWrapper]
    split
    · simp
    · split
      · simp [ETH_READER_MAX_RETRIES]
      · have h := retryWrapperLoop_count_le target (ETH_READER_MAX_RETRIES - 1) 1 (target 0)
        simp only [ETH_READER_MAX_RETRIES] at h ⊢
        omega
  · intro fuel
    induction fuel with
    | zero => intro k; simp [sendTxWithRetriesLoop]
    | succ n ih =>
      intro k
      simp only [sendTxWithRetriesLoop, Nat.succ_ne_zero, if_false]
      exact ih (k + 1)
  · intro fuel
    have h : ∀ fuel k : Nat,
        sendTxWithRetriesLoop (fun _ => TxAttemptResult.errorRetry) 1 (k + 1) fuel = none := by
      intro f
      induction f with
      | zero => intro k; simp [sendTxWithRetriesLoop]
      | succ n ih =>
        intro k
        simp only [sendTxWithRetriesLoop, Nat.succ_ne_zero, if_false]
        exact ih (k + 1)
    simpa [sendTxWithRetries] using h fuel 0

/-- C10: `generateSignedChannelCommitment` with both signatures present returns
the core state and the two given signatures unchanged, independently of the
signer (no new signature is produced); with at most one signature present it
signs the commitment hash and places the new signature in the alice slot
exactly when the signer address equals the state's alice address, passing the
provided counterparty signature through. -/
theorem c10_generate_signed_commitment (s : FullChannelState) (signer : ChannelSigner)
    (a b : Option String) :
    ((truthy a && truthy b) = true →
        generateSignedChannelCommitment s signer a b =
          .ok { core := coreOf s, aliceSignature := a, bobSignature := b } ∧
        ∀ signer2 : ChannelSigner,
          generateSignedChannelCommitment s signer2 a b =
            generateSignedChannelCommitment s signer a b) ∧
    ((truthy a && truthy b) = false →
        ∀ sig : String,
          signer.signMessage (hashChannelCommitment (coreOf s)) = .ok sig →
          generateSignedChannelCommitment s signer a b =
            .ok { core := coreOf s
                  aliceSignature := if signer.address == s.alice then some sig else a
                  bobSignature := if signer.address == s.alice then b else some sig }) := by
  constructor
  · intro h
    constructor
    · simp [generateSignedChannelCommitment, h]
    · intro signer2
      simp [generateSignedChannelCommitment, h]
  · intro h sig hsig
    simp [generateSignedChannelCommitment, h, hsig]

def c10State : FullChannelState :=
  { channelAddress := "0xccc", alice := "A", bob := "B", networkContext := 1337, nonce := 3
    latestUpdate := { channelAddress := "0xccc", nonce := 3, utype := .deposit,
                      aliceSignature := none, bobSignature := none }
    assetIds := [], processedDepositsA := [], processedDepositsB := []
    balances := [], defundNonces := [] }

def c10BobSigner : ChannelSigner :=
  { address := "B", signMessage := fun _ => .ok "sigB" }

/-- Witness for C10 at concrete inputs: with both signatures present they pass
through unchanged; with only the alice signature present, the bob-addressed
signer's new signature lands in the bob slot. -/
theorem c10_generate_signed_commitment_witness :
    (truthy (some "sa") && truthy (some "sb")) = true ∧
    generateSignedChannelCommitment c10State c10BobSigner (some "sa") (some "sb") =
      .ok { core := coreOf c10State, aliceSignature := some "sa", bobSignature := some "sb" } ∧
    (truthy (some "sa") && truthy none) = false ∧
    c10BobSigner.signMessage (hashChannelCommitment (coreOf c10State)) = .ok "sigB" ∧
    generateSignedChannelCommitment c10State c10BobSigner (some "sa") none =
      .ok { core := coreOf c10State, aliceSignature := some "sa", bobSignature := some "sigB" } := by
  refine ⟨by decide, ?_, by decide, rfl, ?_⟩
  · exact ((c10_generate_signed_commitment c10State c10BobSigner (some "sa") (some "sb")).1
      (by decide)).1
  · have h := (c10_generate_signed_commitment c10State c10BobSigner (some "sa") none).2
      (by decide) "sigB" rfl
    simpa [c10BobSigner] using h

theorem applyUpdateModel_nonce (u : ChannelUpdate) (prev : Option FullChannelState) :
    (applyUpdateModel u prev).nonce = u.nonce := by
  cases prev <;> simp [applyUpdateModel]

theorem vaaiu_ok_nonce {V : InboundValidationOracle} {u : ChannelUpdate}
    {prev : Option FullChannelState} {ats : List String} {c : FullChannelState}
    {ts : List String} (h : validateAndApplyInboundUpdate V u prev ats = .ok (c, ts)) :
    c.nonce = u.nonce ∧ u.nonce = storedNonce prev + 1 := by
  unfold validateAndApplyInboundUpdate at h
  split at h
  · simp at h
  · rename_i hguard
    split at h
    · simp at h
    · have hc : c = applyUpdateModel u prev := by
        injection h with h1
        injection h1 with h2 h3
        exact h2.symm
      subst hc
      exact ⟨applyUpdateModel_nonce u prev, by omega⟩

theorem syncState_ok {E : Type} {toSync : ChannelUpdate} {prev : Option FullChannelState}
    {ats : List String} {handleError : String → E} {V : InboundValidationOracle}
    {save : FullChannelState → Except String Unit} {sy : FullChannelState}
    {ts : List String} {tr : List EngineAction}
    (h : syncState toSync prev ats handleError V save = (.ok (sy, ts), tr)) :
    validateAndApplyInboundUpdate V toSync prev ats = .ok (sy, ts) ∧
    tr = [EngineAction.savedSyncedChannel sy] := by
  unfold syncState at h
  split at h
  · simp at h
  · split at h
    · simp at h
    · split at h
      · simp at h
      · rename_i a b hva
        split at h
        · simp at h
        · simp only [Prod.mk.injEq] at h
          obtain ⟨h1, h2⟩ := h
          injection h1 with h1
          injection h1 with ha hb
          subst ha; subst hb
          exact ⟨hva, h2.symm⟩

theorem syncState_trace {E : Type} (toSync : ChannelUpdate) (prev : Option FullChannelState)
    (ats : List String) (handleError : String → E) (V : InboundValidationOracle)
    (save : FullChannelState → Except String Unit) :
    (syncState toSync prev ats handleError V save).2 = [] ∨
    ∃ c, (syncState toSync prev ats handleError V save).2 = [EngineAction.savedSyncedChannel c] := by
  unfold syncState
  split
  · left; rfl
  · split
    · left; rfl
    · split
      · left; rfl
      · split
        · left; rfl
        · right; exact ⟨_, rfl⟩

theorem inboundProcessUpdate_applied {u : ChannelUpdate} {prev : Option FullChannelState}
    {ats : List String} {env : InboundEnv} {c : FullChannelState} {ts : List String}
    (h : (inboundProcessUpdate u prev ats env).1 = InboundOutcome.applied c ts) :
    validateAndApplyInboundUpdate env.V u prev ats = .ok (c, ts) := by
  unfold inboundProcessUpdate at h
  split at h
  · simp [inboundReturnError] at h
  · rename_i a b hva
    split at h
    · simp [inboundReturnError] at h
    · simp only at h
      injection h with ha hb
      subst ha; subst hb
      exact hva

/-- C1: every successfully applied update (main update or sync application)
yields a state whose nonce is the previous state's nonce plus 1, and the
inbound engine succeeds only when the update's nonce exceeds the stored nonce
by 1 (direct application) or by 2 (one sync application followed by the main
application, each advancing the nonce by exactly 1). -/
theorem c1_nonce_strict_increment :
    (∀ (V : InboundValidationOracle) (u : ChannelUpdate) (prev : Option FullChannelState)
        (ats : List String) (c : FullChannelState) (ts : List String),
        validateAndApplyInboundUpdate V u prev ats = .ok (c, ts) →
        c.nonce = storedNonce prev + 1) ∧
    (∀ (u : ChannelUpdate) (pu : Option ChannelUpdate) (env : InboundEnv)
        (ats : List String) (stored : Option FullChannelState)
        (c : FullChannelState) (ts : List String) (tr : List EngineAction),
        env.storeRes = .ok (ats, stored) →
        inbound u pu env = (.applied c ts, tr) →
        c.nonce = u.nonce ∧
        (u.nonce = storedNonce stored + 1 ∨ u.nonce = storedNonce stored + 2)) := by
  constructor
  · intro V u prev ats c ts h
    obtain ⟨h1, h2⟩ := vaaiu_ok_nonce h
    omega
  · intro u pu env ats stored c ts tr hst h
    unfold inbound at h
    simp only [hst] at h
    split at h
    · rename_i h0
      split at h
      · simp at h
      · simp [inboundReturnError] at h
    · split at h
      · simp [inboundReturnError] at h
      · split at h
        · rename_i h0 h3 h2
          split at h
          · simp [inboundReturnError] at h
          · rename_i pu2
            split at h
            · simp [inboundReturnError] at h
            · rename_i sy sats trS hsync
              have h1 : (inboundProcessUpdate u (some sy) sats env).1 =
                  InboundOutcome.applied c ts := by
                have := congrArg Prod.fst h
                simpa using this
              have hva := inboundProcessUpdate_applied h1
              obtain ⟨hc, hn⟩ := vaaiu_ok_nonce hva
              exact ⟨hc, by omega⟩
        · rename_i h0 h3 h2
          have h1 : (inboundProcessUpdate u stored ats env).1 =
              InboundOutcome.applied c ts := by
            have := congrArg Prod.fst h
            simpa using this
          have hva := inboundProcessUpdate_applied h1
          obtain ⟨hc, hn⟩ := vaaiu_ok_nonce hva
          exact ⟨hc, Or.inl hn⟩

/-- A validation oracle that accepts every update and keeps the transfer set
unchanged (used to instantiate concrete runs). -/
def trivOracle : InboundValidationOracle :=
  { check := fun _ _ _ => none, transfersAfter := fun _ _ ats => ats }

/-- A store whose `saveChannelState` always succeeds. -/
def saveOk : FullChannelState → Except String Unit := fun _ => .ok ()

/-- A double-signed deposit update at the given nonce. -/
def mkUpdate (n : Int) : ChannelUpdate :=
  { channelAddress := "0xccc", nonce := n, utype := .deposit,
    aliceSignature := some "sa", bobSignature := some "sb" }

/-- A stored channel at nonce 5. -/
def chan5 : FullChannelState :=
  { channelAddress := "0xccc", alice := "A", bob := "B", networkContext := 1337, nonce := 5
    latestUpdate := { channelAddress := "0xccc", nonce := 5, utype := .deposit,
                      aliceSignature := some "sa5", bobSignature := some "sb5" }
    assetIds := [], processedDepositsA := [], processedDepositsB := []
    balances := [], defundNonces := [] }

/-- `chan5` after applying `mkUpdate 6`. -/
def chan6 : FullChannelState :=
  { chan5 with nonce := 6, latestUpdate := mkUpdate 6 }

/-- An inbound environment storing `chan5` with no active transfers. -/
def baseInboundEnv : InboundEnv :=
  { storeRes := .ok ([], some chan5), V := trivOracle, save := saveOk }

/-- Witness for C1 at a concrete input: a nonce-6 update applied on the stored
nonce-5 channel succeeds and advances the nonce by exactly 1. -/
theorem c1_nonce_strict_increment_witness :
    baseInboundEnv.storeRes = .ok ([], some chan5) ∧
    inbound (mkUpdate 6) none baseInboundEnv =
      (.applied chan6 [],
       [EngineAction.savedInboundChannel chan6,
        EngineAction.respondedToMessage (mkUpdate 6)]) ∧
    chan6.nonce = (mkUpdate 6).nonce ∧
    ((mkUpdate 6).nonce = storedNonce (some chan5) + 1 ∨
     (mkUpdate 6).nonce = storedNonce (some chan5) + 2) := by
  have hrun : inbound (mkUpdate 6) none baseInboundEnv =
      (.applied chan6 [],
       [EngineAction.savedInboundChannel chan6,
        EngineAction.respondedToMessage (mkUpdate 6)]) := by decide
  have h := c1_nonce_strict_increment.2 (mkUpdate 6) none baseInboundEnv [] (some chan5)
    chan6 [] [EngineAction.savedInboundChannel chan6,
              EngineAction.respondedToMessage (mkUpdate 6)] rfl hrun
  exact ⟨rfl, hrun, h.1, h.2⟩

/-- C2 (amended): for every inbound message with `k` the stored nonce (0 if no
channel) and `diff = update.nonce − k`: if `diff ≤ 0` and a channel exists the
engine replies `StaleUpdate` carrying the local `latestUpdate` and does not
apply or persist anything (with no stored channel it crashes instead, see the
counterexample); if `diff ≥ 3` it replies `RestoreNeeded` and persists nothing;
if `diff = 2` it first applies the supplied peer previous update via the
syncer and then processes the update exactly as in the `diff = 1` case; if
`diff = 1` it validates and applies the update directly. -/
theorem c2_inbound_nonce_dispatch (u : ChannelUpdate) (pu : Option ChannelUpdate)
    (env : InboundEnv) (ats : List String) (stored : Option FullChannelState)
    (hst : env.storeRes = .ok (ats, stored)) :
    (u.nonce - storedNonce stored ≤ 0 →
      ∀ ch : FullChannelState, stored = some ch →
        inbound u pu env =
          (InboundOutcome.failed
             { reason := ReasonStaleUpdate, update := some ch.latestUpdate,
               state := some ch, syncError := none },
           [EngineAction.respondedWithError
             { reason := ReasonStaleUpdate, update := some ch.latestUpdate,
               state := some ch, syncError := none }])) ∧
    (u.nonce - storedNonce stored ≥ 3 →
      inbound u pu env =
        (InboundOutcome.failed
           { reason := ReasonRestoreNeeded, update := some u,
             state := stored, syncError := none },
         [EngineAction.respondedWithError
           { reason := ReasonRestoreNeeded, update := some u,
             state := stored, syncError := none }])) ∧
    (u.nonce - storedNonce stored = 2 →
      ∀ pu2 : ChannelUpdate, pu = some pu2 →
        (∀ (e : InboundError) (trS : List EngineAction),
          syncState pu2 stored ats (inboundSyncErrorHandler (some pu2) stored) env.V env.save
            = (.error e, trS) →
          inbound u pu env =
            ((inboundReturnError e.reason e.update u e.state e.syncError).1,
             trS ++ (inboundReturnError e.reason e.update u e.state e.syncError).2)) ∧
        (∀ (sy : FullChannelState) (sats : List String) (trS : List EngineAction),
          syncState pu2 stored ats (inboundSyncErrorHandler (some pu2) stored) env.V env.save
            = (.ok (sy, sats), trS) →
          inbound u pu env =
            ((inboundProcessUpdate u (some sy) sats env).1,
             trS ++ (inboundProcessUpdate u (some sy) sats env).2))) ∧
    (u.nonce - storedNonce stored = 1 →
      inbound u pu env = inboundProcessUpdate u stored ats env) := by
  refine ⟨?_, ?_, ?_, ?_⟩
  · intro h0 ch hch
    subst hch
    unfold inbound
    simp only [hst]
    rw [if_pos h0]
    simp [inboundReturnError]
  · intro h3
    unfold inbound
    simp only [hst]
    rw [if_neg (by omega), if_pos (by omega)]
    simp [inboundReturnError]
  · intro h2 pu2 hpu
    subst hpu
    constructor
    · intro e trS hsync
      unfold inbound
      simp only [hst]
      rw [if_neg (by omega), if_neg (by omega), if_pos h2]
      simp only [hsync]
    · intro sy sats trS hsync
      unfold inbound
      simp only [hst]
      rw [if_neg (by omega), if_neg (by omega), if_pos h2]
      simp only [hsync]
  · intro h1
    unfold inbound
    simp only [hst]
    rw [if_neg (by omega), if_neg (by omega), if_neg (by omega)]

/-- An inbound environment in which no channel is stored. -/
def noChannelEnv : InboundEnv :=
  { storeRes := .ok ([], none), V := trivOracle, save := saveOk }

/-- Counterexample to C2 as stated: with no stored channel (`k = 0`) and a
nonce-0 update (`diff = 0 ≤ 0`), the engine does not reply `StaleUpdate` with
a local `latestUpdate` — dereferencing `channelFromStore!.latestUpdate` throws
a `TypeError` and no reply is sent at all. -/
theorem c2_inbound_nonce_dispatch_counterexample :
    (mkUpdate 0).nonce - storedNonce none ≤ 0 ∧
    inbound (mkUpdate 0) none noChannelEnv = (InboundOutcome.crash, []) :=
  ⟨by decide, by decide⟩

/-- Witness for C2 at concrete inputs: the stale branch on an existing channel
and the direct-application branch. -/
theorem c2_inbound_nonce_dispatch_witness :
    baseInboundEnv.storeRes = .ok ([], some chan5) ∧
    (mkUpdate 5).nonce - storedNonce (some chan5) ≤ 0 ∧
    inbound (mkUpdate 5) none baseInboundEnv =
      (InboundOutcome.failed
         { reason := ReasonStaleUpdate, update := some chan5.latestUpdate,
           state := some chan5, syncError := none },
       [EngineAction.respondedWithError
         { reason := ReasonStaleUpdate, update := some chan5.latestUpdate,
           state := some chan5, syncError := none }]) ∧
    (mkUpdate 6).nonce - storedNonce (some chan5) = 1 ∧
    inbound (mkUpdate 6) none baseInboundEnv =
      inboundProcessUpdate (mkUpdate 6) (some chan5) [] baseInboundEnv := by
  refine ⟨rfl, by decide, ?_, by decide, ?_⟩
  · exact (c2_inbound_nonce_dispatch (mkUpdate 5) none baseInboundEnv [] (some chan5) rfl).1
      (by decide) chan5 rfl
  · exact (c2_inbound_nonce_dispatch (mkUpdate 6) none baseInboundEnv [] (some chan5)
      rfl).2.2.2 (by decide)

/-- C7 (amended): the syncer refuses a setup update with `CannotSyncSetup` and
refuses an update missing either signature, in both cases persisting nothing
(empty effect trace); the missing-signature failure is raised as the message
`Cannot sync single signed state` and surfaced through both callers' error
handlers as a `SyncFailure`-reason error carrying that message in `syncError`
(not as a distinct `CannotSyncSingleSigned` reason), while `CannotSyncSetup`
is preserved by both handlers. -/
theorem c7_syncer_guards :
    (∀ (E : Type) (handleError : String → E) (toSync : ChannelUpdate)
        (prev : Option FullChannelState) (ats : List String)
        (V : InboundValidationOracle) (save : FullChannelState → Except String Unit),
        toSync.utype = UpdateType.setup →
        syncState toSync prev ats handleError V save =
          (.error (handleError ReasonCannotSyncSetup), [])) ∧
    (∀ (E : Type) (handleError : String → E) (toSync : ChannelUpdate)
        (prev : Option FullChannelState) (ats : List String)
        (V : InboundValidationOracle) (save : FullChannelState → Except String Unit),
        toSync.utype ≠ UpdateType.setup →
        (truthy toSync.aliceSignature = false ∨ truthy toSync.bobSignature = false) →
        syncState toSync prev ats handleError V save =
          (.error (handleError CannotSyncSingleSignedMessage), [])) ∧
    (∀ (prevU : Option ChannelUpdate) (prevS : Option FullChannelState),
        inboundSyncErrorHandler prevU prevS CannotSyncSingleSignedMessage =
          { reason := ReasonSyncFailure, update := prevU, state := prevS,
            syncError := some CannotSyncSingleSignedMessage }) ∧
    (∀ prevS : Option FullChannelState,
        outboundSyncErrorHandler prevS CannotSyncSingleSignedMessage =
          { reason := ReasonSyncFailure, state := prevS,
            syncError := some CannotSyncSingleSignedMessage, counterpartyReason := none }) ∧
    (∀ (prevU : Option ChannelUpdate) (prevS : Option FullChannelState),
        (inboundSyncErrorHandler prevU prevS ReasonCannotSyncSetup).reason =
          ReasonCannotSyncSetup) ∧
    (∀ prevS : Option FullChannelState,
        (outboundSyncErrorHandler prevS ReasonCannotSyncSetup).reason =
          ReasonCannotSyncSetup) := by
  refine ⟨?_, ?_, ?_, ?_, ?_, ?_⟩
  · intro E he toSync prev ats V save hset
    unfold syncState
    rw [if_pos hset]
  · intro E he toSync prev ats V save hset hsig
    unfold syncState
    rw [if_neg hset]
    have hb : (!(truthy toSync.aliceSignature) || !(truthy toSync.bobSignature)) = true := by
      rcases hsig with h | h <;> simp [h]
    rw [if_pos hb]
  · intro prevU prevS
    simp [inboundSyncErrorHandler, ReasonCannotSyncSetup, CannotSyncSingleSignedMessage]
  · intro prevS
    simp [outboundSyncErrorHandler, ReasonCannotSyncSetup, CannotSyncSingleSignedMessage]
  · intro prevU prevS
    simp [inboundSyncErrorHandler, ReasonCannotSyncSetup]
  · intro prevS
    simp [outboundSyncErrorHandler, ReasonCannotSyncSetup]

/-- A double-signed setup update at nonce 6. -/
def setupToSync : ChannelUpdate :=
  { channelAddress := "0xccc", nonce := 6, utype := .setup,
    aliceSignature := some "sa", bobSignature := some "sb" }

/-- A nonce-6 deposit update missing the bob signature. -/
def singleSignedToSync : ChannelUpdate :=
  { channelAddress := "0xccc", nonce := 6, utype := .deposit,
    aliceSignature := some "sa", bobSignature := none }

/-- Counterexample to C7 as stated: syncing a single-signed update fails with
an error whose reason is `SyncFailure` (through both the inbound and outbound
handlers), not with the error `CannotSyncSingleSigned`. -/
theorem c7_syncer_guards_counterexample :
    (syncState singleSignedToSync (some chan5) []
        (inboundSyncErrorHandler (some singleSignedToSync) (some chan5))
        trivOracle saveOk).1 =
      .error { reason := ReasonSyncFailure, update := some singleSignedToSync,
               state := some chan5, syncError := some CannotSyncSingleSignedMessage } ∧
    (syncState singleSignedToSync (some chan5) []
        (outboundSyncErrorHandler (some chan5)) trivOracle saveOk).1 =
      .error { reason := ReasonSyncFailure, state := some chan5,
               syncError := some CannotSyncSingleSignedMessage, counterpartyReason := none } ∧
    ReasonSyncFailure ≠ ReasonCannotSyncSingleSigned :=
  ⟨rfl, rfl, by decide⟩

/-- Witness for C7 at concrete inputs: the setup guard and the single-signed
guard, both with an empty effect trace. -/
theorem c7_syncer_guards_witness :
    setupToSync.utype = UpdateType.setup ∧
    syncState setupToSync (some chan5) []
        (inboundSyncErrorHandler (some setupToSync) (some chan5)) trivOracle saveOk =
      (.error (inboundSyncErrorHandler (some setupToSync) (some chan5) ReasonCannotSyncSetup),
       []) ∧
    singleSignedToSync.utype ≠ UpdateType.setup ∧
    truthy singleSignedToSync.bobSignature = false ∧
    syncState singleSignedToSync (some chan5) []
        (inboundSyncErrorHandler (some singleSignedToSync) (some chan5)) trivOracle saveOk =
      (.error (inboundSyncErrorHandler (some singleSignedToSync) (some chan5)
                 CannotSyncSingleSignedMessage),
       []) := by
  refine ⟨rfl, ?_, by decide, by decide, ?_⟩
  · exact c7_syncer_guards.1 InboundError
      (inboundSyncErrorHandler (some setupToSync) (some chan5)) setupToSync
      (some chan5) [] trivOracle saveOk rfl
  · exact c7_syncer_guards.2.1 InboundError
      (inboundSyncErrorHandler (some singleSignedToSync) (some chan5)) singleSignedToSync
      (some chan5) [] trivOracle saveOk (by decide) (Or.inr (by decide))

/-- Whether a trace persists nothing beyond the syncer's recovery save. -/
def onlySyncSaves (tr : List EngineAction) : Bool :=
  tr.all (fun a => match a with
    | EngineAction.savedInboundChannel _ => false
    | EngineAction.savedOutboundChannel _ => false
    | _ => true)

theorem outboundAfterReply_shape (env : OutboundEnv) (r : Except InboundError ChannelUpdate)
    (i : UpdateInfo) (p : Option FullChannelState) (tr : List EngineAction) :
    (∃ e, outboundAfterReply env r i p tr = (.failed e, tr)) ∨
    (∃ c ts t, outboundAfterReply env r i p tr =
        (.completed c ts t, tr ++ [EngineAction.savedOutboundChannel c])) := by
  unfold outboundAfterReply
  cases r with
  | error err => left; exact ⟨_, rfl⟩
  | ok cu =>
    cases hv : env.validateSigs i.updatedChannel cu.aliceSignature cu.bobSignature with
    | error e => simp only [hv]; left; exact ⟨_, rfl⟩
    | ok u =>
      simp only [hv]
      cases hs : env.save { i.updatedChannel with latestUpdate := cu } with
      | error e2 => simp only [hs]; left; exact ⟨_, rfl⟩
      | ok u2 => simp only [hs]; right; exact ⟨_, _, _, rfl⟩

theorem syncStateAndRecreateUpdate_trace (recErr : InboundError)
    (prev : Option FullChannelState) (ats : List String) (env : OutboundEnv) :
    (syncStateAndRecreateUpdate recErr prev ats env).2 = [] ∨
    ∃ c, (syncStateAndRecreateUpdate recErr prev ats env).2 =
      [EngineAction.savedSyncedChannel c] := by
  unfold syncStateAndRecreateUpdate
  split
  · left; rfl
  · rename_i cu hcu
    by_cases hd : cu.nonce - storedNonce prev ≠ 1
    · rw [if_pos hd]
      cases prev
      · left; rfl
      · left; rfl
    · rw [if_neg hd]
      cases hs : syncState cu prev ats (outboundSyncErrorHandler prev) env.V env.save with
      | mk res trS =>
        have h2 := syncState_trace cu prev ats (outboundSyncErrorHandler prev) env.V env.save
        rw [hs] at h2
        simp only at h2
        cases res with
        | error e => simpa using h2
        | ok p =>
          cases p with
          | mk sy sats =>
            cases hv : env.vpaau (some sy) sats with
            | error e => simp only [hv]; simpa using h2
            | ok info2 => simp only [hv]; simpa using h2

theorem onlySyncSaves_append (l1 l2 : List EngineAction) :
    onlySyncSaves (l1 ++ l2) = (onlySyncSaves l1 && onlySyncSaves l2) := by
  simp [onlySyncSaves, List.all_append]

theorem outbound_trace_shape (env : OutboundEnv) :
    (∃ e tr, outbound env = (.failed e, tr) ∧ onlySyncSaves tr = true) ∨
    (outbound env).1 = OutboundOutcome.crash ∨
    (∃ c ts t tr0, outbound env =
        (.completed c ts t, tr0 ++ [EngineAction.savedOutboundChannel c]) ∧
      onlySyncSaves tr0 = true) := by
  cases hst : env.storeRes with
  | error msg =>
    left
    refine ⟨{ reason := ReasonStoreFailure, state := none, syncError := none,
              counterpartyReason := none }, [], ?_, rfl⟩
    simp [outbound, hst]
  | ok p =>
    cases p with
    | mk ats prev =>
      cases hv : env.vpaau prev ats with
      | error e =>
        left
        refine ⟨e, [], ?_, rfl⟩
        simp [outbound, hst, hv]
      | ok info =>
        cases hs0 : env.send 0 with
        | ok cu =>
          have hout : outbound env =
              outboundAfterReply env (.ok cu) info prev
                [EngineAction.sentProtocolMessage info.update] := by
            simp [outbound, hst, hv, hs0]
          rcases outboundAfterReply_shape env (.ok cu) info prev
              [EngineAction.sentProtocolMessage info.update] with ⟨e2, heq⟩ | ⟨c2, ts2, t2, heq⟩
          · left; exact ⟨e2, _, hout.trans heq, rfl⟩
          · right; right; exact ⟨c2, ts2, t2, _, hout.trans heq, rfl⟩
        | error err =>
          by_cases hstale : err.reason = ReasonStaleUpdate
          · cases hsync : syncStateAndRecreateUpdate err prev ats env with
            | mk o trS =>
              have htrS : onlySyncSaves trS = true := by
                have h2 := syncStateAndRecreateUpdate_trace err prev ats env
                rw [hsync] at h2
                simp only at h2
                rcases h2 with h2 | ⟨c2, h2⟩ <;> simp [h2, onlySyncSaves]
              cases o with
              | none =>
                right; left
                simp [outbound, hst, hv, hs0, hstale, hsync]
              | some res =>
                cases res with
                | error e2 =>
                  left
                  refine ⟨e2, EngineAction.sentProtocolMessage info.update :: trS, ?_, ?_⟩
                  · simp [outbound, hst, hv, hs0, hstale, hsync]
                  · have h3 := htrS
                    simp only [onlySyncSaves, List.all_cons] at h3 ⊢
                    simpa using h3
                | ok sync =>
                  have hout : outbound env =
                      outboundAfterReply env (env.send 1) sync.info (some sync.syncedChannel)
                        ([EngineAction.sentProtocolMessage info.update] ++ trS ++
                          [EngineAction.sentProtocolMessage sync.info.update]) := by
                    simp [outbound, hst, hv, hs0, hstale, hsync]
                  have htr0 : onlySyncSaves
                      ([EngineAction.sentProtocolMessage info.update] ++ trS ++
                        [EngineAction.sentProtocolMessage sync.info.update]) = true := by
                    rw [onlySyncSaves_append, onlySyncSaves_append, htrS]
                    rfl
                  rcases outboundAfterReply_shape env (env.send 1) sync.info
                      (some sync.syncedChannel)
                      ([EngineAction.sentProtocolMessage info.update] ++ trS ++
                        [EngineAction.sentProtocolMessage sync.info.update]) with
                    ⟨e2, heq⟩ | ⟨c2, ts2, t2, heq⟩
                  · left; exact ⟨e2, _, hout.trans heq, htr0⟩
                  · right; right; exact ⟨c2, ts2, t2, _, hout.trans heq, htr0⟩
          · have hout : outbound env =
                outboundAfterReply env (.error err) info prev
                  [EngineAction.sentProtocolMessage info.update] := by
              simp [outbound, hst, hv, hs0, hstale]
            rcases outboundAfterReply_shape env (.error err) info prev
                [EngineAction.sentProtocolMessage info.update] with
              ⟨e2, heq⟩ | ⟨c2, ts2, t2, heq⟩
            · left; exact ⟨e2, _, hout.trans heq, rfl⟩
            · right; right; exact ⟨c2, ts2, t2, _, hout.trans heq, rfl⟩

/-- C4 (amended): if parameter validation fails, the outbound engine returns
the error with no protocol message sent and nothing persisted (empty trace);
whenever the outbound engine returns an error, the final persistence of the
proposed updated channel has not happened — the only state a failed run may
have persisted is the counterparty's double-signed synced channel saved by the
stale-update recovery; on success the final persistence of the updated channel
is the last effect of the run. -/
theorem c4_error_leaves_channel_unchanged (env : OutboundEnv) :
    (∀ (ats : List String) (prev : Option FullChannelState) (e : OutboundError),
        env.storeRes = .ok (ats, prev) → env.vpaau prev ats = .error e →
        outbound env = (.failed e, [])) ∧
    (∀ (e : OutboundError) (tr : List EngineAction),
        outbound env = (.failed e, tr) → onlySyncSaves tr = true) ∧
    (∀ (c : FullChannelState) (ts : List String) (t : Option String)
        (tr : List EngineAction),
        outbound env = (.completed c ts t, tr) →
        ∃ tr0, tr = tr0 ++ [EngineAction.savedOutboundChannel c] ∧
          onlySyncSaves tr0 = true) := by
  refine ⟨?_, ?_, ?_⟩
  · intro ats prev e h1 h2
    simp [outbound, h1, h2]
  · intro e tr h
    rcases outbound_trace_shape env with ⟨e2, tr2, heq, honly⟩ | hcr |
      ⟨c2, ts2, t2, tr0, heq, honly⟩
    · rw [h] at heq
      simp only [Prod.mk.injEq, OutboundOutcome.failed.injEq] at heq
      rw [heq.2]
      exact honly
    · rw [h] at hcr
      simp at hcr
    · rw [h] at heq
      simp at heq
  · intro c ts t tr h
    rcases outbound_trace_shape env with ⟨e2, tr2, heq, honly⟩ | hcr |
      ⟨c2, ts2, t2, tr0, heq, honly⟩
    · rw [h] at heq
      simp at heq
    · rw [h] at hcr
      simp at hcr
    · rw [h] at heq
      simp only [Prod.mk.injEq, OutboundOutcome.completed.injEq] at heq
      obtain ⟨⟨hc, _, _⟩, htr⟩ := heq
      subst hc
      exact ⟨tr0, htr, honly⟩

/-- A `validateParamsAndApplyUpdate` oracle deriving the next deposit update
from whatever previous state it is given (fails when no channel is stored). -/
def outVpaau : Option FullChannelState → List String → Except OutboundError UpdateInfo :=
  fun prev _ =>
    match prev with
    | some c =>
      .ok { update := mkUpdate (c.nonce + 1)
            updatedChannel := { c with nonce := c.nonce + 1, latestUpdate := mkUpdate (c.nonce + 1) }
            updatedTransfer := none
            updatedActiveTransfers := [] }
    | none =>
      .error { reason := "ChannelNotFound", state := none,
               syncError := none, counterpartyReason := none }

/-- The `StaleUpdate` protocol error a peer at nonce 6 replies with, carrying
its latest update. -/
def staleReplyErr : InboundError :=
  { reason := ReasonStaleUpdate, update := some (mkUpdate 6), state := none, syncError := none }

/-- A messaging timeout error. -/
def timeoutErr : InboundError :=
  { reason := ReasonTimeout, update := none, state := none, syncError := none }

/-- An outbound environment in which the first send is answered `StaleUpdate`
(peer at nonce 6) and the retry times out. -/
def staleThenTimeoutEnv : OutboundEnv :=
  { storeRes := .ok ([], some chan5)
    vpaau := outVpaau
    send := fun i => if i == 0 then .error staleReplyErr else .error timeoutErr
    validateSigs := fun _ _ _ => .ok ()
    V := trivOracle
    save := saveOk }

/-- Counterexample to C4 as stated: the counterparty round-trip fails (retry
times out after a stale-update sync), the engine returns the error — but
`saveChannelState` has been invoked before that failure: the recovery persisted
the synced channel, so a failing outbound run is not save-free. -/
theorem c4_error_leaves_channel_unchanged_counterexample :
    (outbound staleThenTimeoutEnv).1 =
      .failed { reason := ReasonCounterpartyOffline, state := some chan6,
                syncError := none, counterpartyReason := some ReasonTimeout } ∧
    EngineAction.savedSyncedChannel chan6 ∈ (outbound staleThenTimeoutEnv).2 :=
  ⟨by decide, by decide⟩

/-- An outbound environment in which no channel is stored, so parameter
validation fails. -/
def noChannelOutboundEnv : OutboundEnv :=
  { storeRes := .ok ([], none)
    vpaau := outVpaau
    send := fun _ => .error timeoutErr
    validateSigs := fun _ _ _ => .ok ()
    V := trivOracle
    save := saveOk }

/-- An outbound environment in which the counterparty immediately acks. -/
def ackOutboundEnv : OutboundEnv :=
  { storeRes := .ok ([], some chan5)
    vpaau := outVpaau
    send := fun _ => .ok (mkUpdate 6)
    validateSigs := fun _ _ _ => .ok ()
    V := trivOracle
    save := saveOk }

/-- Witness for C4 at concrete inputs: a failed validation sends and saves
nothing; a failed run persists at most the synced channel; a successful run
ends in the final persistence. -/
theorem c4_error_leaves_channel_unchanged_witness :
    noChannelOutboundEnv.storeRes = .ok ([], none) ∧
    noChannelOutboundEnv.vpaau none [] =
      .error { reason := "ChannelNotFound", state := none,
               syncError := none, counterpartyReason := none } ∧
    outbound noChannelOutboundEnv =
      (.failed { reason := "ChannelNotFound", state := none,
                 syncError := none, counterpartyReason := none }, []) ∧
    onlySyncSaves (outbound staleThenTimeoutEnv).2 = true ∧
    outbound ackOutboundEnv =
      (.completed chan6 [] none,
       [EngineAction.sentProtocolMessage (mkUpdate 6),
        EngineAction.savedOutboundChannel chan6]) ∧
    (∃ tr0, [EngineAction.sentProtocolMessage (mkUpdate 6),
             EngineAction.savedOutboundChannel chan6] =
        tr0 ++ [EngineAction.savedOutboundChannel chan6] ∧
      onlySyncSaves tr0 = true) := by
  have hfail : outbound staleThenTimeoutEnv =
      (.failed { reason := ReasonCounterpartyOffline, state := some chan6,
                 syncError := none, counterpartyReason := some ReasonTimeout },
       [EngineAction.sentProtocolMessage (mkUpdate 6),
        EngineAction.savedSyncedChannel chan6,
        EngineAction.sentProtocolMessage (mkUpdate 7)]) := by decide
  have hack : outbound ackOutboundEnv =
      (.completed chan6 [] none,
       [EngineAction.sentProtocolMessage (mkUpdate 6),
        EngineAction.savedOutboundChannel chan6]) := by decide
  refine ⟨rfl, rfl, ?_, ?_, hack, ?_⟩
  · exact (c4_error_leaves_channel_unchanged noChannelOutboundEnv).1 [] none _ rfl rfl
  · have h2 := (c4_error_leaves_channel_unchanged staleThenTimeoutEnv).2.1 _ _ hfail
    have h3 := congrArg Prod.snd hfail
    rw [h3]
    exact h2
  · exact (c4_error_leaves_channel_unchanged ackOutboundEnv).2.2 chan6 [] none _ hack

theorem sentUpdates_append (l1 l2 : List EngineAction) :
    sentUpdates (l1 ++ l2) = sentUpdates l1 ++ sentUpdates l2 := by
  simp [sentUpdates]

theorem sentUpdates_outboundAfterReply (env : OutboundEnv)
    (r : Except InboundError ChannelUpdate) (i : UpdateInfo)
    (p : Option FullChannelState) (tr : List EngineAction) :
    sentUpdates (outboundAfterReply env r i p tr).2 = sentUpdates tr := by
  rcases outboundAfterReply_shape env r i p tr with ⟨e, heq⟩ | ⟨c, ts, t, heq⟩
  · rw [congrArg Prod.snd heq]
  · rw [congrArg Prod.snd heq, sentUpdates_append]
    simp [sentUpdates]

/-- C5: when the first send is answered `StaleUpdate`, the outbound engine
takes the counterparty's latest update from the error; if it is ahead of the
local state by anything other than exactly 1 the engine fails with
`RestoreNeeded` without syncing or re-sending; otherwise it applies that update
through the inbound validation path, persists the synced channel, re-derives
the proposed update against the synced state, and retries the send exactly
once — the run sends exactly the original update followed by the re-derived
update, whatever the retry's outcome. -/
theorem c5_stale_update_syncs_and_retries_once (env : OutboundEnv) (ats : List String)
    (prev : FullChannelState) (info : UpdateInfo) (err : InboundError)
    (hst : env.storeRes = .ok (ats, some prev))
    (hv : env.vpaau (some prev) ats = .ok info)
    (hs0 : env.send 0 = .error err)
    (hr : err.reason = ReasonStaleUpdate) :
    (∀ cu : ChannelUpdate, err.update = some cu → cu.nonce - prev.nonce ≠ 1 →
        outbound env =
          (.failed { reason := ReasonRestoreNeeded, state := some prev,
                     syncError := none, counterpartyReason := none },
           [EngineAction.sentProtocolMessage info.update])) ∧
    (∀ (cu : ChannelUpdate) (synced : FullChannelState) (sats : List String)
        (info2 : UpdateInfo),
        err.update = some cu →
        cu.utype ≠ UpdateType.setup →
        truthy cu.aliceSignature = true → truthy cu.bobSignature = true →
        validateAndApplyInboundUpdate env.V cu (some prev) ats = .ok (synced, sats) →
        env.save synced = .ok () →
        env.vpaau (some synced) sats = .ok info2 →
        outbound env =
          outboundAfterReply env (env.send 1) info2 (some synced)
            [EngineAction.sentProtocolMessage info.update,
             EngineAction.savedSyncedChannel synced,
             EngineAction.sentProtocolMessage info2.update] ∧
        sentUpdates (outbound env).2 = [info.update, info2.update]) := by
  constructor
  · intro cu hcu hdiff
    have hsync : syncStateAndRecreateUpdate err (some prev) ats env =
        (some (.error { reason := ReasonRestoreNeeded, state := some prev,
                        syncError := none, counterpartyReason := none }), []) := by
      unfold syncStateAndRecreateUpdate
      simp only [hcu, storedNonce]
      rw [if_pos hdiff]
    simp [outbound, hst, hv, hs0, hr, hsync]
  · intro cu synced sats info2 hcu hset ha hb happly hsave hre
    have hdiff : ¬(cu.nonce - storedNonce (some prev) ≠ 1) := by
      have := (vaaiu_ok_nonce happly).2
      simp only [storedNonce] at this ⊢
      omega
    have hss : syncState cu (some prev) ats (outboundSyncErrorHandler (some prev))
        env.V env.save = (.ok (synced, sats), [EngineAction.savedSyncedChannel synced]) := by
      unfold syncState
      rw [if_neg hset]
      rw [if_neg (by simp [ha, hb])]
      simp only [happly, hsave]
    have hsync : syncStateAndRecreateUpdate err (some prev) ats env =
        (some (.ok { info := info2, syncedChannel := synced }),
         [EngineAction.savedSyncedChannel synced]) := by
      unfold syncStateAndRecreateUpdate
      simp only [hcu]
      rw [if_neg hdiff]
      simp only [hss, hre]
    have hout : outbound env =
        outboundAfterReply env (env.send 1) info2 (some synced)
          [EngineAction.sentProtocolMessage info.update,
           EngineAction.savedSyncedChannel synced,
           EngineAction.sentProtocolMessage info2.update] := by
      simp [outbound, hst, hv, hs0, hr, hsync]
    refine ⟨hout, ?_⟩
    rw [hout, sentUpdates_outboundAfterReply]
    simp [sentUpdates]

/-- `chan6` after applying `mkUpdate 7`. -/
def chan7 : FullChannelState :=
  { chan6 with nonce := 7, latestUpdate := mkUpdate 7 }

/-- The update info `outVpaau` derives against `chan5`. -/
def infoAt6 : UpdateInfo :=
  { update := mkUpdate 6, updatedChannel := chan6,
    updatedTransfer := none, updatedActiveTransfers := [] }

/-- The update info `outVpaau` derives against `chan6`. -/
def infoAt7 : UpdateInfo :=
  { update := mkUpdate 7, updatedChannel := chan7,
    updatedTransfer := none, updatedActiveTransfers := [] }

/-- A `StaleUpdate` reply whose latest update is ahead of nonce 5 by 3. -/
def staleFarReplyErr : InboundError :=
  { reason := ReasonStaleUpdate, update := some (mkUpdate 8), state := none, syncError := none }

/-- An outbound environment whose peer replies `StaleUpdate` with a latest
update ahead by 3. -/
def staleRestoreEnv : OutboundEnv :=
  { staleThenTimeoutEnv with
    send := fun i => if i == 0 then .error staleFarReplyErr else .error timeoutErr }

/-- Witness for C5 at concrete inputs: a peer ahead by 3 makes the outbound
engine fail with `RestoreNeeded` after a single send; a peer ahead by exactly 1
makes it sync and retry exactly once, sending nonce 6 then nonce 7. -/
theorem c5_stale_update_syncs_and_retries_once_witness :
    staleRestoreEnv.storeRes = .ok ([], some chan5) ∧
    staleRestoreEnv.vpaau (some chan5) [] = .ok infoAt6 ∧
    staleRestoreEnv.send 0 = .error staleFarReplyErr ∧
    staleFarReplyErr.reason = ReasonStaleUpdate ∧
    staleFarReplyErr.update = some (mkUpdate 8) ∧
    (mkUpdate 8).nonce - chan5.nonce ≠ 1 ∧
    outbound staleRestoreEnv =
      (.failed { reason := ReasonRestoreNeeded, state := some chan5,
                 syncError := none, counterpartyReason := none },
       [EngineAction.sentProtocolMessage (mkUpdate 6)]) ∧
    validateAndApplyInboundUpdate staleThenTimeoutEnv.V (mkUpdate 6) (some chan5) [] =
      .ok (chan6, []) ∧
    staleThenTimeoutEnv.vpaau (some chan6) [] = .ok infoAt7 ∧
    sentUpdates (outbound staleThenTimeoutEnv).2 = [mkUpdate 6, mkUpdate 7] := by
  have h1 := (c5_stale_update_syncs_and_retries_once staleRestoreEnv [] chan5 infoAt6
      staleFarReplyErr rfl rfl rfl rfl).1 (mkUpdate 8) rfl (by decide)
  have h2 := (c5_stale_update_syncs_and_retries_once staleThenTimeoutEnv [] chan5 infoAt6
      staleReplyErr rfl rfl rfl rfl).2 (mkUpdate 6) chan6 [] infoAt7 rfl (by decide)
      (by decide) (by decide) rfl rfl rfl
  refine ⟨rfl, rfl, rfl, rfl, rfl, by decide, ?_, rfl, rfl, ?_⟩
  · simpa [infoAt6] using h1
  · simpa [infoAt6, infoAt7] using h2.2

theorem foldl_enumFrom_congr {B C : Type} (g : Nat → Bool) (f : C → Nat × B → C)
    (f2 : C → B → C)
    (hf : ∀ (acc : C) (i : Nat) (b : B), g i = true → f acc (i, b) = f2 acc b) :
    ∀ (l : List B) (n : Nat) (acc : C),
      (∀ i, n ≤ i → i < n + l.length → g i = true) →
      (l.enumFrom n).foldl f acc = l.foldl f2 acc := by
  intro l
  induction l with
  | nil => intro n acc hg; rfl
  | cons b t ih =>
    intro n acc hg
    show (((n, b) :: t.enumFrom (n + 1)).foldl f acc) = _
    rw [List.foldl_cons, List.foldl_cons, hf acc n b (hg n le_rfl (by simp))]
    exact ih (n + 1) _ (fun i h1 h2 => hg i (by omega) (by simp at h2 ⊢; omega))

theorem foldl_add_eq_sum (l : List Int) : ∀ acc : Int,
    l.foldl (fun a b => a + b) acc = acc + l.sum := by
  induction l with
  | nil => intro acc; simp
  | cons b t ih =>
    intro acc
    rw [List.foldl_cons, ih, List.sum_cons]
    ring

theorem foldl_balance_add (l : List Balance) : ∀ init : Balance,
    l.foldl (fun prev b =>
        { toAddresses := prev.toAddresses
          amount := (prev.amount.1 + b.amount.1, prev.amount.2 + b.amount.2) }) init =
      { toAddresses := init.toAddresses
        amount := (init.amount.1 + (l.map (fun b => b.amount.1)).sum,
                   init.amount.2 + (l.map (fun b => b.amount.2)).sum) } := by
  induction l with
  | nil => intro init; simp
  | cons b t ih =>
    intro init
    rw [List.foldl_cons, ih]
    simp only [List.map_cons, List.sum_cons]
    refine congrArg (fun am => Balance.mk init.toAddresses am) ?_
    simp only [Prod.mk.injEq]
    constructor <;> ring

theorem charListLt_irrefl : ∀ l : List Char, charListLt l l = false := by
  intro l
  induction l with
  | nil => rfl
  | cons c t ih =>
    show (if c < c then true else if c < c then false else charListLt t t) = false
    rw [if_neg (lt_irrefl c), if_neg (lt_irrefl c), ih]

theorem charListLt_trans : ∀ {a b c : List Char},
    charListLt a b = true → charListLt b c = true → charListLt a c = true := by
  intro a
  induction a with
  | nil =>
    intro b c hab hbc
    cases c with
    | nil => cases b <;> simp [charListLt] at hab hbc
    | cons y t => rfl
  | cons x xs ih =>
    intro b c hab hbc
    cases b with
    | nil => simp [charListLt] at hab
    | cons y ys =>
      cases c with
      | nil => simp [charListLt] at hbc
      | cons z zs =>
        show (if x < z then true else if z < x then false else charListLt xs zs) = true
        simp only [charListLt] at hab hbc
        split at hab
        · rename_i hxy
          split at hbc
          · rename_i hyz
            rw [if_pos (lt_trans hxy hyz)]
          · split at hbc
            · simp at hbc
            · rename_i hzy hyz
              have hyz2 : y = z := le_antisymm (not_lt.mp hyz) (not_lt.mp hzy)
              subst hyz2
              rw [if_pos hxy]
        · split at hab
          · simp at hab
          · rename_i hyx hxy
            have hxy2 : x = y := le_antisymm (not_lt.mp hxy) (not_lt.mp hyx)
            subst hxy2
            split at hbc
            · rename_i hyz
              rw [if_pos hyz]
            · split at hbc
              · simp at hbc
              · rename_i hzy hyz
                have : x = z := le_antisymm (not_lt.mp hyz) (not_lt.mp hzy)
                subst this
                rw [if_neg (lt_irrefl x), if_neg (lt_irrefl x)]
                exact ih hab hbc

theorem charListLt_eq_of_not : ∀ {a b : List Char},
    charListLt a b = false → charListLt b a = false → a = b := by
  intro a
  induction a with
  | nil =>
    intro b hab hba
    cases b with
    | nil => rfl
    | cons y t => simp [charListLt] at hab
  | cons x xs ih =>
    intro b hab hba
    cases b with
    | nil => simp [charListLt] at hba
    | cons y ys =>
      by_cases hxy : x < y
      · simp [charListLt, hxy] at hab
      · by_cases hyx : y < x
        · simp [charListLt, hyx] at hba
        · have hxy2 : x = y := le_antisymm (not_lt.mp hyx) (not_lt.mp hxy)
          subst hxy2
          simp only [charListLt, if_neg (lt_irrefl x)] at hab hba
          rw [ih hab hba]

theorem strLt_irrefl (a : String) : strLt a a = false := charListLt_irrefl a.data

theorem strLt_trans {a b c : String} (h1 : strLt a b = true) (h2 : strLt b c = true) :
    strLt a c = true := charListLt_trans h1 h2

theorem strLt_eq_of_not {a b : String} (h1 : strLt a b = false) (h2 : strLt b a = false) :
    a = b := by
  have hd : a.data = b.data := charListLt_eq_of_not h1 h2
  cases a with
  | mk da =>
    cases b with
    | mk db =>
      simp only at hd
      rw [hd]

theorem strLt_notLt_trans {r m a : String} (h1 : strLt r m = false)
    (h2 : strLt m a = false) : strLt r a = false := by
  by_contra hra
  rw [Bool.not_eq_false] at hra
  cases ham : strLt a m with
  | true => rw [strLt_trans hra ham] at h1; exact absurd h1 (by simp)
  | false =>
    have : m = a := strLt_eq_of_not h2 ham
    subst this
    rw [hra] at h1
    exact absurd h1 (by simp)

theorem strLt_smaxStr_left (a b : String) : strLt (smaxStr a b) a = false := by
  unfold smaxStr strGtB
  cases h : strLt b a with
  | true => rw [if_pos rfl]; exact strLt_irrefl a
  | false => rw [if_neg (by simp)]; exact h

theorem strLt_smaxStr_right (a b : String) : strLt (smaxStr a b) b = false := by
  unfold smaxStr strGtB
  cases h : strLt b a with
  | true =>
    rw [if_pos rfl]
    by_contra hab
    rw [Bool.not_eq_false] at hab
    have := strLt_trans hab h
    rw [strLt_irrefl] at this
    exact absurd this (by simp)
  | false => rw [if_neg (by simp)]; exact strLt_irrefl b

theorem foldl_smaxStr_not_lt (l : List String) : ∀ acc : String,
    strLt (l.foldl smaxStr acc) acc = false ∧
    ∀ d ∈ l, strLt (l.foldl smaxStr acc) d = false := by
  induction l with
  | nil => intro acc; exact ⟨strLt_irrefl acc, by simp⟩
  | cons c t ih =>
    intro acc
    rw [List.foldl_cons]
    have h1 := (ih (smaxStr acc c)).1
    refine ⟨strLt_notLt_trans h1 (strLt_smaxStr_left acc c), ?_⟩
    intro d hd
    rcases List.mem_cons.mp hd with rfl | hd
    · exact strLt_notLt_trans h1 (strLt_smaxStr_right acc d)
    · exact (ih (smaxStr acc c)).2 d hd

theorem foldl_smaxStr_mem (l : List String) : ∀ acc : String,
    l.foldl smaxStr acc ∈ acc :: l := by
  induction l with
  | nil => intro acc; simp
  | cons c t ih =>
    intro acc
    rw [List.foldl_cons]
    have h := ih (smaxStr acc c)
    rcases List.mem_cons.mp h with heq | hmem
    · rw [heq]
      unfold smaxStr
      split
      · simp
      · simp
    · simp [List.mem_cons.mpr (Or.inr hmem)]

theorem unprocessedAsset_all {channel : FullChannelState} {a0 : String}
    (hdup : ∀ x ∈ channel.assetIds, toLowerAscii x = toLowerAscii a0) {i : Nat}
    (hi : i < channel.assetIds.length) :
    unprocessedAsset a0 false (channel.assetIds.getD i "") = true := by
  rw [List.getD_eq_getElem channel.assetIds "" hi]
  simp [unprocessedAsset, lowerEq, hdup channel.assetIds[i] (List.getElem_mem hi)]

theorem processedForAsset_eq_sum (channel : FullChannelState) (a0 : String)
    (hdup : ∀ x ∈ channel.assetIds, toLowerAscii x = toLowerAscii a0)
    (l : List Int) (hlen : l.length ≤ channel.assetIds.length) :
    processedForAsset channel a0 false l = l.sum := by
  unfold processedForAsset
  rw [show l.enum = l.enumFrom 0 from rfl]
  rw [foldl_enumFrom_congr (fun i => unprocessedAsset a0 false (channel.assetIds.getD i ""))
    _ (fun a b => a + b) (by intro acc i b hg; simp only [hg, if_true]) l 0 0
    (fun i _ h2 => unprocessedAsset_all hdup (by omega))]
  rw [foldl_add_eq_sum]
  ring

theorem balanceForAsset_eq_sums (channel : FullChannelState) (a0 : String)
    (hdup : ∀ x ∈ channel.assetIds, toLowerAscii x = toLowerAscii a0)
    (hlen : channel.balances.length ≤ channel.assetIds.length) :
    balanceForAsset channel a0 false =
      { toAddresses := [channel.alice, channel.bob]
        amount := ((channel.balances.map (fun b => b.amount.1)).sum,
                   (channel.balances.map (fun b => b.amount.2)).sum) } := by
  have h := foldl_enumFrom_congr
    (fun i => unprocessedAsset a0 false (channel.assetIds.getD i ""))
    (fun (prev : Balance) (p : Nat × Balance) =>
      if unprocessedAsset a0 false (channel.assetIds.getD p.1 "") then
        { toAddresses := prev.toAddresses
          amount := (prev.amount.1 + p.2.amount.1, prev.amount.2 + p.2.amount.2) }
      else prev)
    (fun (prev : Balance) (b : Balance) =>
      { toAddresses := prev.toAddresses
        amount := (prev.amount.1 + b.amount.1, prev.amount.2 + b.amount.2) })
    (by intro acc i b hg; simp only [hg, if_true])
    channel.balances 0
    { toAddresses := [channel.alice, channel.bob], amount := ((0 : Int), (0 : Int)) }
    (fun i _ h2 => unprocessedAsset_all hdup (by omega))
  unfold balanceForAsset
  rw [show channel.balances.enum = channel.balances.enumFrom 0 from rfl, h, foldl_balance_add]
  simp

theorem defundNonceForAsset_eq_foldl_smaxStr (channel : FullChannelState) (a0 : String)
    (hdup : ∀ x ∈ channel.assetIds, toLowerAscii x = toLowerAscii a0)
    (hlen : channel.defundNonces.length ≤ channel.assetIds.length) :
    defundNonceForAsset channel a0 false = channel.defundNonces.foldl smaxStr "0" := by
  unfold defundNonceForAsset
  rw [show channel.defundNonces.enum = channel.defundNonces.enumFrom 0 from rfl]
  rw [foldl_enumFrom_congr (fun i => unprocessedAsset a0 false (channel.assetIds.getD i ""))
    _ (fun a b => smaxStr a b)
    (by intro acc i b hg; simp only [hg, Bool.true_and, smaxStr])
    channel.defundNonces 0 "0"
    (fun i _ h2 => unprocessedAsset_all hdup (by omega))]

theorem mergeStep_first (channel : FullChannelState) (a0 b : String) (rest2 : List String)
    (hids : channel.assetIds = a0 :: b :: rest2)
    (hb : toLowerAscii b = toLowerAscii a0) :
    mergeStep channel [] 0 a0 = [(0, mergeRowForAsset channel a0 false)] := by
  have henum : channel.assetIds.enum = (0, a0) :: (1, b) :: rest2.enumFrom 2 := by
    rw [hids]; rfl
  have hmem : (1, b) ∈ channel.assetIds.enum.filter
      (fun p => lowerEq p.2 a0 && !(p.1 == 0)) := by
    apply List.mem_filter.mpr
    refine ⟨by rw [henum]; simp, ?_⟩
    simp [lowerEq, hb]
  have hne : (channel.assetIds.enum.filter
      (fun p => lowerEq p.2 a0 && !(p.1 == 0))).isEmpty = false := by
    rcases hq : channel.assetIds.enum.filter (fun p => lowerEq p.2 a0 && !(p.1 == 0)) with
      _ | ⟨x, t⟩
    · rw [hq] at hmem; simp at hmem
    · rw [hq]; rfl
  unfold mergeStep
  rw [if_neg (by simp [hne])]
  rw [if_pos (by simp [unprocessedAsset, lowerEq, assignedAssetIds])]
  simp [assignedAssetIds]

theorem mergeStep_skip (channel : FullChannelState) (a0 : String) (rest : List String)
    (hids : channel.assetIds = a0 :: rest) (row : AssetRow)
    (hrow : row.assetId = getAddress a0) (k : Nat) (x : String)
    (hk : k ≠ 0) (hx : toLowerAscii x = toLowerAscii a0) :
    mergeStep channel [(0, row)] k x = [(0, row)] := by
  have hmem : (0, a0) ∈ channel.assetIds.enum.filter
      (fun p => lowerEq p.2 x && !(p.1 == k)) := by
    apply List.mem_filter.mpr
    refine ⟨by rw [hids]; simp [List.enum], ?_⟩
    have h0k : ((0 : Nat) == k) = false := by
      simp only [beq_eq_false_iff_ne]
      omega
    simp [lowerEq, hx, h0k]
  have hne : (channel.assetIds.enum.filter
      (fun p => lowerEq p.2 x && !(p.1 == k))).isEmpty = false := by
    rcases hq : channel.assetIds.enum.filter (fun p => lowerEq p.2 x && !(p.1 == k)) with
      _ | ⟨y, t⟩
    · rw [hq] at hmem; simp at hmem
    · rw [hq]; rfl
  have hcontains : ((assignedAssetIds [(0, row)]).contains (getAddress x)) = true := by
    have : getAddress x = getAddress a0 := by simp [getAddress, hx]
    simp [assignedAssetIds, hrow, this, List.contains]
  have hfalse : unprocessedAsset x ((assignedAssetIds [(0, row)]).contains (getAddress x)) x
      = false := by
    rw [unprocessedAsset, hcontains]
    simp
  unfold mergeStep
  rw [if_neg (by simp [hne])]
  rw [if_neg (by simp only [hfalse]; simp)]

theorem mergeAssignments_rest (channel : FullChannelState) (a0 : String) (rest : List String)
    (hids : channel.assetIds = a0 :: rest) (row : AssetRow)
    (hrow : row.assetId = getAddress a0) :
    ∀ (l : List String) (k : Nat), k ≠ 0 → (∀ x ∈ l, toLowerAscii x = toLowerAscii a0) →
      (l.enumFrom k).foldl (fun acc p => mergeStep channel acc p.1 p.2) [(0, row)] =
        [(0, row)] := by
  intro l
  induction l with
  | nil => intro k hk hl; rfl
  | cons x t ih =>
    intro k hk hl
    show ((((k, x) :: t.enumFrom (k + 1)).foldl
      (fun acc p => mergeStep channel acc p.1 p.2) [(0, row)]) = _)
    rw [List.foldl_cons]
    simp only
    rw [mergeStep_skip channel a0 rest hids row hrow k x hk (hl x (by simp))]
    exact ih (k + 1) (by omega) (fun y hy => hl y (by simp [hy]))

theorem mergeAssignments_all_dup (channel : FullChannelState) (a0 b : String)
    (rest2 : List String) (hids : channel.assetIds = a0 :: b :: rest2)
    (hdup : ∀ x ∈ channel.assetIds, toLowerAscii x = toLowerAscii a0) :
    mergeAssignments channel = [(0, mergeRowForAsset channel a0 false)] := by
  have hb : toLowerAscii b = toLowerAscii a0 := hdup b (by rw [hids]; simp)
  unfold mergeAssignments
  conv_lhs => rw [hids]
  show ((((0, a0) :: ((b :: rest2).enumFrom 1)).foldl
    (fun acc p => mergeStep channel acc p.1 p.2) []) = _)
  rw [List.foldl_cons]
  simp only
  rw [mergeStep_first channel a0 b rest2 hids hb]
  exact mergeAssignments_rest channel a0 (b :: rest2) hids
    (mergeRowForAsset channel a0 false) rfl (b :: rest2) 1 (by omega)
    (fun y hy => hdup y (by rw [hids]; simp [hy]))

theorem lookupRow_pos (row : AssetRow) (i : Nat) (hi : i ≠ 0) :
    lookupRow [(0, row)] i = none := by
  have h0 : ((0 : Nat) == i) = false := by
    simp only [beq_eq_false_iff_ne]
    omega
  simp [lookupRow, List.find?, h0]

theorem range'_map_lookup_none (row : AssetRow) :
    ∀ (m s : Nat), s ≠ 0 →
      (List.range' s m).map (lookupRow [(0, row)]) = List.replicate m none := by
  intro m
  induction m with
  | zero => intro s hs; rfl
  | succ k ih =>
    intro s hs
    show (lookupRow [(0, row)] s :: (List.range' (s + 1) k).map (lookupRow [(0, row)])) = _
    rw [lookupRow_pos row s hs, ih (s + 1) (by omega)]
    rfl

theorem range_map_lookup (row : AssetRow) (n : Nat) (hn : 1 ≤ n) :
    (List.range n).map (lookupRow [(0, row)]) =
      some row :: List.replicate (n - 1) none := by
  obtain ⟨m, rfl⟩ : ∃ m, n = m + 1 := ⟨n - 1, by omega⟩
  rw [List.range_eq_range']
  show (lookupRow [(0, row)] 0 :: (List.range' 1 m).map (lookupRow [(0, row)])) = _
  rw [range'_map_lookup_none row m 1 (by omega)]
  rfl

theorem dropWhile_isNone_replicate_append {A : Type} (v : A) :
    ∀ m : Nat, (List.replicate m (none : Option A) ++ [some v]).dropWhile
        (fun o => o.isNone) = [some v] := by
  intro m
  induction m with
  | zero => rfl
  | succ k ih =>
    show ((none :: (List.replicate k (none : Option A) ++ [some v])).dropWhile
      (fun o => o.isNone)) = _
    rw [List.dropWhile_cons_of_pos (by rfl)]
    exact ih

theorem jsTrim_some_replicate {A : Type} (v : A) (m : Nat) :
    jsTrim (some v :: List.replicate m (none : Option A)) = [some v] := by
  unfold jsTrim
  rw [List.reverse_cons, List.reverse_replicate, dropWhile_isNone_replicate_append]
  rfl

/-- C8 (amended): for every channel whose `assetIds` all agree up to casing
(at least two entries) and whose five parallel arrays have equal length, the
merge on load produces a single canonical entry whose balance amounts and
processed-deposit totals are the sums over all duplicates, and whose defund
nonce is the string-lexicographic maximum of `"0"` and the duplicates' defund
nonces (e.g. duplicates with balances (1,2) and (3,4) are read back as one
entry with balance (4,6)).  With further non-duplicate assets in the channel
the defund-nonce clause fails, and the comparison is string order rather than
numeric order — see the counterexample. -/
theorem c8_merge_duplicate_asset_ids (channel : FullChannelState) (a0 : String)
    (rest : List String) (hids : channel.assetIds = a0 :: rest) (hrest : rest ≠ [])
    (hdup : ∀ x ∈ channel.assetIds, toLowerAscii x = toLowerAscii a0)
    (hlA : channel.processedDepositsA.length = channel.assetIds.length)
    (hlB : channel.processedDepositsB.length = channel.assetIds.length)
    (hlBal : channel.balances.length = channel.assetIds.length)
    (hlD : channel.defundNonces.length = channel.assetIds.length) :
    (mergeAssetIds channel).assetIds = [some (getAddress a0)] ∧
    (mergeAssetIds channel).processedDepositsA = [some channel.processedDepositsA.sum] ∧
    (mergeAssetIds channel).processedDepositsB = [some channel.processedDepositsB.sum] ∧
    (mergeAssetIds channel).balances =
      [some { toAddresses := [channel.alice, channel.bob]
              amount := ((channel.balances.map (fun x => x.amount.1)).sum,
                         (channel.balances.map (fun x => x.amount.2)).sum) }] ∧
    (mergeAssetIds channel).defundNonces =
      [some (channel.defundNonces.foldl smaxStr "0")] ∧
    (∀ d ∈ channel.defundNonces,
      strLt (channel.defundNonces.foldl smaxStr "0") d = false) ∧
    channel.defundNonces.foldl smaxStr "0" ∈ "0" :: channel.defundNonces := by
  obtain ⟨b, rest2, rfl⟩ := List.exists_cons_of_ne_nil hrest
  have hasg := mergeAssignments_all_dup channel a0 b rest2 hids hdup
  have hrow : mergeRowForAsset channel a0 false =
      { assetId := getAddress a0
        processedA := channel.processedDepositsA.sum
        processedB := channel.processedDepositsB.sum
        balance := { toAddresses := [channel.alice, channel.bob]
                     amount := ((channel.balances.map (fun x => x.amount.1)).sum,
                                (channel.balances.map (fun x => x.amount.2)).sum) }
        defundNonce := channel.defundNonces.foldl smaxStr "0" } := by
    unfold mergeRowForAsset
    rw [processedForAsset_eq_sum channel a0 hdup channel.processedDepositsA (by omega),
      processedForAsset_eq_sum channel a0 hdup channel.processedDepositsB (by omega),
      balanceForAsset_eq_sums channel a0 hdup (by omega),
      defundNonceForAsset_eq_foldl_smaxStr channel a0 hdup (by omega)]
  have hn : 1 ≤ channel.assetIds.length := by rw [hids]; simp
  have hrows : (List.range channel.assetIds.length).map
      (lookupRow (mergeAssignments channel)) =
      some (mergeRowForAsset channel a0 false) ::
        List.replicate (channel.assetIds.length - 1) none := by
    rw [hasg]
    exact range_map_lookup (mergeRowForAsset channel a0 false) channel.assetIds.length hn
  have hfield : ∀ {A : Type} (f : AssetRow → A),
      jsTrim (((List.range channel.assetIds.length).map
          (lookupRow (mergeAssignments channel))).map (Option.map f)) = [some
            (f (mergeRowForAsset channel a0 false))] := by
    intro A f
    rw [hrows]
    show jsTrim (some (f (mergeRowForAsset channel a0 false)) ::
      (List.replicate (channel.assetIds.length - 1) (none : Option AssetRow)).map
        (Option.map f)) = _
    rw [List.map_replicate]
    exact jsTrim_some_replicate _ _
  refine ⟨?_, ?_, ?_, ?_, ?_, ?_⟩
  · rw [show (mergeAssetIds channel).assetIds = jsTrim (((List.range
      channel.assetIds.length).map (lookupRow (mergeAssignments channel))).map
        (Option.map (fun r => r.assetId))) from rfl, hfield, hrow]
  · rw [show (mergeAssetIds channel).processedDepositsA = jsTrim (((List.range
      channel.assetIds.length).map (lookupRow (mergeAssignments channel))).map
        (Option.map (fun r => r.processedA))) from rfl, hfield, hrow]
  · rw [show (mergeAssetIds channel).processedDepositsB = jsTrim (((List.range
      channel.assetIds.length).map (lookupRow (mergeAssignments channel))).map
        (Option.map (fun r => r.processedB))) from rfl, hfield, hrow]
  · rw [show (mergeAssetIds channel).balances = jsTrim (((List.range
      channel.assetIds.length).map (lookupRow (mergeAssignments channel))).map
        (Option.map (fun r => r.balance))) from rfl, hfield, hrow]
  · rw [show (mergeAssetIds channel).defundNonces = jsTrim (((List.range
      channel.assetIds.length).map (lookupRow (mergeAssignments channel))).map
        (Option.map (fun r => r.defundNonce))) from rfl, hfield, hrow]
  · exact ⟨fun d hd => (foldl_smaxStr_not_lt channel.defundNonces "0").2 d hd,
      foldl_smaxStr_mem channel.defundNonces "0"⟩

/-- A channel holding two casing-duplicates of one asset followed by a distinct
asset; the duplicates' defund nonces are "5", the distinct asset's is "2". -/
def mixedAssetChannel : FullChannelState :=
  { channelAddress := "0xccc", alice := "A", bob := "B", networkContext := 1337, nonce := 4
    latestUpdate := { channelAddress := "0xccc", nonce := 4, utype := .deposit,
                      aliceSignature := none, bobSignature := none }
    assetIds := ["0xAA", "0xaa", "0xBB"]
    processedDepositsA := [10, 20, 7]
    processedDepositsB := [1, 2, 3]
    balances := [{ toAddresses := ["A", "B"], amount := (1, 2) },
                 { toAddresses := ["A", "B"], amount := (3, 4) },
                 { toAddresses := ["A", "B"], amount := (9, 9) }]
    defundNonces := ["5", "5", "2"] }

/-- A channel holding exactly two casing-duplicates with multi-digit defund
nonces "2" and "10". -/
def lexAssetChannel : FullChannelState :=
  { mixedAssetChannel with
    assetIds := ["0xAA", "0xaa"]
    processedDepositsA := [10, 20]
    processedDepositsB := [1, 2]
    balances := [{ toAddresses := ["A", "B"], amount := (1, 2) },
                 { toAddresses := ["A", "B"], amount := (3, 4) }]
    defundNonces := ["2", "10"] }

/-- Counterexample to C8 as stated: the merged defund nonce is not the maximum
over the duplicates.  With a distinct asset after the duplicates the reduce
takes the unrelated asset's nonce ("2" instead of the duplicates' maximum "5",
even though the balance sums are still correct); and with nonces "2" and "10"
the comparison is string-lexicographic, yielding "2" instead of "10". -/
theorem c8_merge_duplicate_asset_ids_counterexample :
    (mergeAssetIds mixedAssetChannel).assetIds = [some "0xaa", none, some "0xbb"] ∧
    (mergeAssetIds mixedAssetChannel).balances.getD 0 none =
      some { toAddresses := ["A", "B"], amount := (4, 6) } ∧
    smaxStr "5" "5" = "5" ∧
    (mergeAssetIds mixedAssetChannel).defundNonces.getD 0 none = some "2" ∧
    some "2" ≠ some ("5" : String) ∧
    (mergeAssetIds lexAssetChannel).defundNonces = [some "2"] ∧
    some "2" ≠ some ("10" : String) :=
  ⟨by decide, by decide, by decide, by decide, by decide, by decide, by decide⟩

/-- The spec's own merge example: duplicates `0xAbC`/`0xabc` with balances
(1,2) and (3,4). -/
def dupPairChannel : FullChannelState :=
  { mixedAssetChannel with
    assetIds := ["0xAbC", "0xabc"]
    processedDepositsA := [10, 20]
    processedDepositsB := [1, 2]
    balances := [{ toAddresses := ["A", "B"], amount := (1, 2) },
                 { toAddresses := ["A", "B"], amount := (3, 4) }]
    defundNonces := ["1", "1"] }

/-- Witness for C8 at a concrete input: the spec's `["0xAbC", "0xabc"]` example
is read back as one canonical entry with balance (4,6), summed deposits, and
defund nonce "1". -/
theorem c8_merge_duplicate_asset_ids_witness :
    dupPairChannel.assetIds = "0xAbC" :: ["0xabc"] ∧
    (["0xabc"] : List String) ≠ [] ∧
    (∀ x ∈ dupPairChannel.assetIds, toLowerAscii x = toLowerAscii "0xAbC") ∧
    (mergeAssetIds dupPairChannel).assetIds = [some "0xabc"] ∧
    (mergeAssetIds dupPairChannel).processedDepositsA = [some 30] ∧
    (mergeAssetIds dupPairChannel).processedDepositsB = [some 3] ∧
    (mergeAssetIds dupPairChannel).balances =
      [some { toAddresses := ["A", "B"], amount := (4, 6) }] ∧
    (mergeAssetIds dupPairChannel).defundNonces = [some "1"] := by
  have h := c8_merge_duplicate_asset_ids dupPairChannel "0xAbC" ["0xabc"] rfl
    (by decide) (by decide) rfl rfl rfl rfl
  refine ⟨rfl, by decide, by decide, ?_, ?_, ?_, ?_, ?_⟩
  · simpa using h.1
  · simpa using h.2.1
  · simpa using h.2.2.1
  · simpa using h.2.2.2.1
  · simpa using h.2.2.2.2.1

/-- Witness for C9 at concrete inputs: a permanently failing chain read makes
at most 5 attempts; the transaction loop with a permanently retryable failure
is still running after 100 iterations. -/
theorem c9_retry_bounds_witness :
    (retryWrapper true (fun _ => (.error { message := "rpc down" } : Except ChainError Nat))).2 ≤
      ETH_READER_MAX_RETRIES ∧
    sendTxWithRetries (fun _ => TxAttemptResult.errorRetry) 1 100 = none :=
  ⟨(c9_retry_bounds Nat).1 true (fun _ => .error { message := "rpc down" }),
   (c9_retry_bounds Nat).2.2 100⟩
